import Mathlib

/-! # Time Off Buddy (`cmd/root.go`)

A shallow embedding of the pay-period calculator of `tobuddy` and the
verification of its specification.

Conventions of the embedding:

* a Go `int` is a 64-bit two's-complement integer: it is carried by an `Int` in
  the range `-2^63 .. 2^63 - 1`, and every `+`, `+=` and `*` of the program is
  followed by the reduction `wrapInt64` to that range; `/` and `%` of Go are
  `Int.tdiv` and `Int.tmod` (truncation toward zero, remainder with the sign of
  the dividend);
* a Go `error` is an `Option String`: `none` is `nil`, `some msg` is an error whose
  `Error()` text is `msg`;
* the `for` loop of `determinePayPeriods` may run forever, so it takes a bound on
  the number of iterations (`fuel`) and yields `none` when the bound is exhausted;
* the process-wide state (the viper key/value store, standard input, standard
  output) is passed explicitly as a `World`;
* `determinePayPeriodsMath` is the same loop over the unbounded integers, the
  mathematical reading the program is compared with.
-/

namespace TimeOffBuddy

/-! ## Library pieces used by the program -/

/-- Value of `math.MinInt` on a 64-bit platform, `-2^63`. -/
def MinInt : Int := -9223372036854775808

/-- Value of `math.MaxInt` on a 64-bit platform, `2^63 - 1`. -/
def MaxInt : Int := 9223372036854775807

/-- Reduction of an integer to the range of a 64-bit two's-complement `int`,
`-2^63 .. 2^63 - 1`: what a Go addition or multiplication keeps of its
mathematical result. -/
def wrapInt64 (x : Int) : Int :=
  (x + 9223372036854775808) % 18446744073709551616 - 9223372036854775808

/-- An operand handed to a `fmt` formatting function: an `int` or a value printed
by its text (a `string`, or an `error` through its `Error()` text). -/
inductive Operand where
  | int : Int → Operand
  | str : String → Operand

/-- Default (`%v`) rendering of an operand: an `int` in decimal, with a leading
minus sign when negative; a string as it is. -/
def Operand.render : Operand → String
  | .int i => toString i
  | .str s => s

/-- Expansion of a format: each `%v` verb is replaced by the rendering of the next
operand; every other character is copied. (All formats of the program have
exactly as many `%v` verbs as operands.) -/
def sprintfAux : List Char → List Operand → List Char
  | '%' :: 'v' :: cs, a :: as => a.render.data ++ sprintfAux cs as
  | c :: cs, as => c :: sprintfAux cs as
  | [], _ => []

/-- The text `fmt.Sprintf(format, args...)`; `fmt.Printf` writes this text and
`fmt.Errorf` wraps it in an error. -/
def Sprintf (format : String) (args : List Operand) : String :=
  ⟨sprintfAux format.data args⟩

/-- The viper key/value store: `viper.GetInt` and `viper.GetBool` read it,
`viper.Set` overrides one key. -/
structure Viper where
  ints : String → Int
  bools : String → Bool

/-- Model of `viper.GetInt(key)`. -/
def Viper.GetInt (v : Viper) (key : String) : Int := v.ints key

/-- Model of `viper.GetBool(key)`. -/
def Viper.GetBool (v : Viper) (key : String) : Bool := v.bools key

/-- Model of `viper.Set(key, value)` for an `int` value. -/
def Viper.SetInt (v : Viper) (key : String) (value : Int) : Viper :=
  ⟨fun k => if k = key then value else v.ints k, v.bools⟩

/-- Model of `viper.Set(key, value)` for a `bool` value. -/
def Viper.SetBool (v : Viper) (key : String) (value : Bool) : Viper :=
  ⟨v.ints, fun k => if k = key then value else v.bools k⟩

/-- The state outside the program's variables: the viper store, what remains of
standard input and what was written to standard output.  Standard input is the
list of the texts that the successive `fmt.Scanf("%v\n", &input)` calls store in
`input`; once it is exhausted (end of file) a call leaves `input` empty. -/
structure World where
  viper : Viper
  stdin : List String
  stdout : List String

/-! ## Constants of `cmd/root.go` -/

def EARNED_HOURS_OPTION : String := "ch"
def EARNED_MINUTES_OPTION : String := "cm"
def HOURS_PER_PAY_PERIOD_OPTION : String := "eh"
def MINUTES_PER_PAY_PERIOD_OPTION : String := "em"
def TARGET_LONG_OPTION : String := "target"
def VERBOSE_LONG_OPTION : String := "verbose"
def INTERACTIVE_OPTION : String := "interactive"

/-- The map `descriptions`, filled by `init` with the usage text of each flag. -/
def descriptions (option : String) : String :=
  if option = EARNED_HOURS_OPTION then "Number of Hours accrued."
  else if option = EARNED_MINUTES_OPTION then "Number of Minutes accrued."
  else if option = HOURS_PER_PAY_PERIOD_OPTION then "Number of hours earned per pay period"
  else if option = MINUTES_PER_PAY_PERIOD_OPTION then "Number of minutes earned per pay period"
  else if option = TARGET_LONG_OPTION then "Total time off time required in hours."
  else ""

/-- The store right after `init`: every flag at its default (`target` is 40, all
other numbers 0, both switches off). -/
def flagDefaults : Viper :=
  ⟨fun k => if k = TARGET_LONG_OPTION then 40 else 0, fun _ => false⟩

/-! ## The configuration and its validator -/

structure TimeOffBuddyConfig where
  EarnedHours : Int
  EarnedMinutes : Int
  HoursPerPayPeriod : Int
  MinutesPerPayPeriod : Int
  TargetHours : Int
  Verbose : Bool

namespace TimeOffBuddyConfig

def totalEarnedMinutes (cfg : TimeOffBuddyConfig) : Int :=
  let totalEarnedMinutes := wrapInt64 (cfg.EarnedHours * 60)
  wrapInt64 (totalEarnedMinutes + cfg.EarnedMinutes)

def totalMinutesPerPayPeriod (cfg : TimeOffBuddyConfig) : Int :=
  let minutesPerPayPeriod := wrapInt64 (cfg.HoursPerPayPeriod * 60)
  wrapInt64 (minutesPerPayPeriod + cfg.MinutesPerPayPeriod)

def targetHoursInMinutes (cfg : TimeOffBuddyConfig) : Int :=
  wrapInt64 (cfg.TargetHours * 60)

def totalEarnedMinutesValid (cfg : TimeOffBuddyConfig) : Bool :=
  decide (cfg.totalEarnedMinutes ≥ 0)

def totalMinutesPerPayPeridValid (cfg : TimeOffBuddyConfig) : Bool :=
  decide (cfg.totalMinutesPerPayPeriod > 0)

def targetHoursInMinutesValid (cfg : TimeOffBuddyConfig) : Bool :=
  decide (cfg.targetHoursInMinutes > 0)

def whatIsInvalid (cfg : TimeOffBuddyConfig) : Option String :=
  if !cfg.totalEarnedMinutesValid then
    some (Sprintf "total earned minutes invalid: %v" [.int cfg.totalEarnedMinutes])
  else if !cfg.totalMinutesPerPayPeridValid then
    some (Sprintf "total minutes per pay period invalid: %v" [.int cfg.totalMinutesPerPayPeriod])
  else if !cfg.targetHoursInMinutesValid then
    some (Sprintf "target hours invalid: %v" [.int cfg.TargetHours])
  else
    none

def validateConfig (cfg : TimeOffBuddyConfig) : Bool :=
  let validEarnedMinutes := cfg.totalEarnedMinutesValid
  let validMinutesPerPayPeriod := cfg.totalMinutesPerPayPeridValid
  let validTargetMinutes := cfg.targetHoursInMinutesValid
  validEarnedMinutes && validMinutesPerPayPeriod && validTargetMinutes

def data (cfg : TimeOffBuddyConfig) : Int × Int × Int :=
  (cfg.totalEarnedMinutes, cfg.totalMinutesPerPayPeriod, cfg.targetHoursInMinutes)

end TimeOffBuddyConfig

def newTimeOffBuddyConfig (v : Viper) : TimeOffBuddyConfig :=
  ⟨v.GetInt EARNED_HOURS_OPTION, v.GetInt EARNED_MINUTES_OPTION,
   v.GetInt HOURS_PER_PAY_PERIOD_OPTION, v.GetInt MINUTES_PER_PAY_PERIOD_OPTION,
   v.GetInt TARGET_LONG_OPTION, v.GetBool VERBOSE_LONG_OPTION⟩

def isInteractive (v : Viper) : Bool := v.GetBool INTERACTIVE_OPTION

def standardOptions : List String :=
  [EARNED_HOURS_OPTION, EARNED_MINUTES_OPTION, HOURS_PER_PAY_PERIOD_OPTION,
   MINUTES_PER_PAY_PERIOD_OPTION, TARGET_LONG_OPTION]

/-! ## Interactive mode -/

/-- The inner `for !valueSet` loop of `interactiveMode` for one option: print the
prompt, read an answer; an empty answer keeps the value, an answer accepted by
`strconv.Atoi` (the parameter `atoi`) overrides it, any other answer prompts
again.  The recursion is on the remaining standard input. -/
def promptOption (atoi : String → Option Int) (option : String) (viper : Viper)
    (stdout : List String) : List String → World
  | [] =>
    ⟨viper, [],
      stdout ++ ["Enter an Integer for the following: " ++ descriptions option ++ ": "
        ++ toString (viper.GetInt option) ++ ": "]⟩
  | input :: rest =>
    let stdout1 := stdout ++ ["Enter an Integer for the following: " ++ descriptions option
      ++ ": " ++ toString (viper.GetInt option) ++ ": "]
    if input = "" then ⟨viper, rest, stdout1⟩
    else match atoi input with
      | some newValue => ⟨viper.SetInt option newValue, rest, stdout1⟩
      | none => promptOption atoi option viper stdout1 rest

def interactiveMode (atoi : String → Option Int) (w : World) : World :=
  let w1 := standardOptions.foldl
    (fun (acc : World) option => promptOption atoi option acc.viper acc.stdout acc.stdin) w
  let stdout1 := w1.stdout ++ ["Enable Verbose Logging? y/n:"]
  let input := w1.stdin.headD ""
  if input = "y" then ⟨w1.viper.SetBool VERBOSE_LONG_OPTION true, w1.stdin.tail, stdout1⟩
  else ⟨w1.viper, w1.stdin.tail, stdout1⟩

/-! ## The accrual simulator -/

/-- The `for` loop of `determinePayPeriods`.  The state is the running total, the
counter and the lines printed so far; the result is the state at loop exit, or
`none` when `fuel` iterations did not reach the exit.  The two additions of the
loop (`+= minutesPerPayPeriod` and `+= 1`) wrap around at 64 bits. -/
def payPeriodsLoop (minutesPerPayPeriod targetHoursInMinutes : Int) (verboseOutput : Bool) :
    Nat → Int → Int → List String → Option (Int × Int × List String)
  | 0, totalEarnedMinutes, payPeriods, out =>
    if totalEarnedMinutes < targetHoursInMinutes then none
    else some (totalEarnedMinutes, payPeriods, out)
  | fuel + 1, totalEarnedMinutes, payPeriods, out =>
    if totalEarnedMinutes < targetHoursInMinutes then
      payPeriodsLoop minutesPerPayPeriod targetHoursInMinutes verboseOutput fuel
        (wrapInt64 (totalEarnedMinutes + minutesPerPayPeriod)) (wrapInt64 (payPeriods + 1))
        (if verboseOutput then
          out ++ [Sprintf "%v hrs %v minutes earned\n"
            [.int (totalEarnedMinutes.tdiv 60), .int (totalEarnedMinutes.tmod 60)]]
         else out)
    else some (totalEarnedMinutes, payPeriods, out)

/-- The function `determinePayPeriods`: the returned count together with the lines
written to standard output. -/
def determinePayPeriods (fuel : Nat)
    (totalEarnedMinutes minutesPerPayPeriod targetHoursInMinutes : Int)
    (verboseOutput : Bool) : Option (Int × List String) :=
  match payPeriodsLoop minutesPerPayPeriod targetHoursInMinutes verboseOutput fuel
      totalEarnedMinutes 0 [] with
  | none => none
  | some (total, payPeriods, out) =>
    some (payPeriods,
      if verboseOutput then
        out ++ [Sprintf "%v hrs %v minutes earned\n" [.int (total.tdiv 60), .int (total.tmod 60)]]
      else out)

/-! ## The orchestrator and the command -/

/-- The function `executeTimeOffBuddy`: the pair `(payPeriods, err)` and the world
it leaves behind. -/
def executeTimeOffBuddy (atoi : String → Option Int) (fuel : Nat) (w : World) :
    Option (Int × Option String × World) :=
  let w1 := if isInteractive w.viper then interactiveMode atoi w else w
  let cfg := newTimeOffBuddyConfig w1.viper
  if cfg.validateConfig then
    let verboseOutput := cfg.Verbose
    match determinePayPeriods fuel cfg.data.1 cfg.data.2.1 cfg.data.2.2 verboseOutput with
    | none => none
    | some (payPeriods, out) => some (payPeriods, none, ⟨w1.viper, w1.stdin, w1.stdout ++ out⟩)
  else if cfg.totalMinutesPerPayPeriod ≤ 0 then
    some (MinInt, none, w1)
  else
    some (-1, cfg.whatIsInvalid, w1)

/-- The `RunE` function of `rootCmd`: the returned error and the world it leaves
behind. -/
def RunE (atoi : String → Option Int) (fuel : Nat) (w : World) : Option (Option String × World) :=
  match executeTimeOffBuddy atoi fuel w with
  | none => none
  | some (payPeriods, err, w1) =>
    match err with
    | some e => some (some (Sprintf "failed to calculate pay periods: %v" [.str e]), w1)
    | none =>
      if payPeriods = MinInt then
        some (none, ⟨w1.viper, w1.stdin, w1.stdout ++ ["No Time Off Earned\n"]⟩)
      else
        some (none, ⟨w1.viper, w1.stdin, w1.stdout ++ [Sprintf "%v pay periods\n" [.int payPeriods]]⟩)

/-! ## Specification-side helpers -/

/-- The progress line the simulator prints for a running total. -/
def progressLine (total : Int) : String :=
  Sprintf "%v hrs %v minutes earned\n" [.int (total.tdiv 60), .int (total.tmod 60)]

/-- The progress lines for the running totals `t, t + p, ..., t + (k - 1) * p`. -/
def progressLines (t p : Int) (k : Nat) : List String :=
  (List.range k).map fun (j : Nat) => progressLine (t + (j : Int) * p)

/-- The answer read at the verbose prompt of `interactiveMode`: what the `Scanf`
after the five numeric prompts stores in `input`. -/
def verbosePromptAnswer (atoi : String → Option Int) (w : World) : String :=
  (standardOptions.foldl
    (fun (acc : World) option => promptOption atoi option acc.viper acc.stdout acc.stdin)
    w).stdin.headD ""

/-- The closed form of the period count, as the specification words it: for
`total < target` the quotient `(target - total + perPeriod - 1) / perPeriod`, that
is the ceiling of `(target - total) / perPeriod`; for `total ≥ target`, zero. -/
def closedFormPayPeriods (total perPeriod target : Int) : Int :=
  if total < target then (target - total + perPeriod - 1) / perPeriod else 0

/-! ## The mathematical reading of the simulator, and overflow -/

/-- The loop of `determinePayPeriods` read over the mathematical integers: the two
additions are exact.  It is the reference the program is compared with. -/
def payPeriodsLoopMath (minutesPerPayPeriod targetHoursInMinutes : Int) (verboseOutput : Bool) :
    Nat → Int → Int → List String → Option (Int × Int × List String)
  | 0, totalEarnedMinutes, payPeriods, out =>
    if totalEarnedMinutes < targetHoursInMinutes then none
    else some (totalEarnedMinutes, payPeriods, out)
  | fuel + 1, totalEarnedMinutes, payPeriods, out =>
    if totalEarnedMinutes < targetHoursInMinutes then
      payPeriodsLoopMath minutesPerPayPeriod targetHoursInMinutes verboseOutput fuel
        (totalEarnedMinutes + minutesPerPayPeriod) (payPeriods + 1)
        (if verboseOutput then
          out ++ [Sprintf "%v hrs %v minutes earned\n"
            [.int (totalEarnedMinutes.tdiv 60), .int (totalEarnedMinutes.tmod 60)]]
         else out)
    else some (totalEarnedMinutes, payPeriods, out)

/-- The function `determinePayPeriods` read over the mathematical integers. -/
def determinePayPeriodsMath (fuel : Nat)
    (totalEarnedMinutes minutesPerPayPeriod targetHoursInMinutes : Int)
    (verboseOutput : Bool) : Option (Int × List String) :=
  match payPeriodsLoopMath minutesPerPayPeriod targetHoursInMinutes verboseOutput fuel
      totalEarnedMinutes 0 [] with
  | none => none
  | some (total, payPeriods, out) =>
    some (payPeriods,
      if verboseOutput then
        out ++ [Sprintf "%v hrs %v minutes earned\n" [.int (total.tdiv 60), .int (total.tmod 60)]]
      else out)

/-- The three derived quantities of a configuration, taken as mathematical
integers, lie in the 64-bit range; the program then computes exactly these
values (`quantities_of_noOverflow`). -/
@[reducible] def TimeOffBuddyConfig.noOverflow (cfg : TimeOffBuddyConfig) : Prop :=
  (MinInt ≤ cfg.EarnedHours * 60 + cfg.EarnedMinutes ∧
    cfg.EarnedHours * 60 + cfg.EarnedMinutes ≤ MaxInt) ∧
  (MinInt ≤ cfg.HoursPerPayPeriod * 60 + cfg.MinutesPerPayPeriod ∧
    cfg.HoursPerPayPeriod * 60 + cfg.MinutesPerPayPeriod ≤ MaxInt) ∧
  (MinInt ≤ cfg.TargetHours * 60 ∧ cfg.TargetHours * 60 ≤ MaxInt)

/-- The progress lines for the 64-bit running totals `t, t + p, ...` of `k`
iterations, each reduced by `wrapInt64`. -/
def progressLinesWrap (t p : Int) (k : Nat) : List String :=
  (List.range k).map fun (j : Nat) => progressLine (wrapInt64 (t + (j : Int) * p))

/-! ## Concrete runs (the scenarios of the specification) -/

example : wrapInt64 9223372036854775807 = 9223372036854775807 := by decide
example : wrapInt64 (9223372036854775807 + 1) = -9223372036854775808 := by decide
example : wrapInt64 (-9223372036854775808 - 1) = 9223372036854775807 := by decide
example : closedFormPayPeriods 30 120 60 = 1 := by decide
example : closedFormPayPeriods 0 60 2400 = 40 := by decide
set_option maxRecDepth 8000 in
example : (determinePayPeriods 40 0 60 2400 false).map Prod.fst = some 40 := by decide
example : (determinePayPeriods 0 2400 60 2400 false).map Prod.fst = some 0 := by decide
example : determinePayPeriods 5 30 120 60 true
    = some (1, ["0 hrs 30 minutes earned\n", "2 hrs 30 minutes earned\n"]) := by decide
example : determinePayPeriods 5 30 0 60 true = none := by decide
example : (TimeOffBuddyConfig.mk (-1) 0 1 0 40 false).whatIsInvalid
    = some "total earned minutes invalid: -60" := by decide
example : (TimeOffBuddyConfig.mk 153722867280912931 0 1 0 40 false).totalEarnedMinutes
    = -9223372036854775756 := by decide
example : (TimeOffBuddyConfig.mk 0 0 153722867280912930 8 40 false).totalMinutesPerPayPeriod
    = MinInt := by decide

/-! ## Formatting lemmas -/

theorem sprintf_progress (a b : Int) :
    Sprintf "%v hrs %v minutes earned\n" [.int a, .int b]
      = toString a ++ " hrs " ++ toString b ++ " minutes earned\n" := by
  apply String.ext
  simp [Sprintf, sprintfAux, Operand.render]

theorem sprintf_payPeriods (a : Int) :
    Sprintf "%v pay periods\n" [.int a] = toString a ++ " pay periods\n" := by
  apply String.ext
  simp [Sprintf, sprintfAux, Operand.render]

theorem progress_ne_noTimeOff (s₁ s₂ : String) :
    s₁ ++ " hrs " ++ s₂ ++ " minutes earned\n" ≠ "No Time Off Earned\n" := by
  intro h
  have := congrArg (fun s => s.data.reverse) h
  simp at this

theorem payPeriods_ne_noTimeOff (s₁ : String) :
    s₁ ++ " pay periods\n" ≠ "No Time Off Earned\n" := by
  intro h
  have := congrArg (fun s => s.data.reverse) h
  simp at this

theorem prompt_ne_noTimeOff (d x : String) :
    "Enter an Integer for the following: " ++ d ++ ": " ++ x ++ ": " ≠ "No Time Off Earned\n" := by
  intro h
  have := congrArg String.data h
  simp at this

theorem sprintf_earned (a : Int) :
    Sprintf "total earned minutes invalid: %v" [.int a]
      = "total earned minutes invalid: " ++ toString a := by
  apply String.ext
  simp [Sprintf, sprintfAux, Operand.render]

theorem sprintf_perPeriod (a : Int) :
    Sprintf "total minutes per pay period invalid: %v" [.int a]
      = "total minutes per pay period invalid: " ++ toString a := by
  apply String.ext
  simp [Sprintf, sprintfAux, Operand.render]

theorem sprintf_target (a : Int) :
    Sprintf "target hours invalid: %v" [.int a] = "target hours invalid: " ++ toString a := by
  apply String.ext
  simp [Sprintf, sprintfAux, Operand.render]

theorem earned_ne_perPeriod (s₁ s₂ : String) :
    "total earned minutes invalid: " ++ s₁ ≠ "total minutes per pay period invalid: " ++ s₂ := by
  intro h
  have := congrArg String.data h
  simp at this

theorem earned_ne_target (s₁ s₂ : String) :
    "total earned minutes invalid: " ++ s₁ ≠ "target hours invalid: " ++ s₂ := by
  intro h
  have := congrArg String.data h
  simp at this

theorem perPeriod_ne_target (s₁ s₂ : String) :
    "total minutes per pay period invalid: " ++ s₁ ≠ "target hours invalid: " ++ s₂ := by
  intro h
  have := congrArg String.data h
  simp at this

/-- The three branches of `whatIsInvalid`, with the text each one produces. -/
theorem whatIsInvalid_cases (cfg : TimeOffBuddyConfig) :
    (cfg.totalEarnedMinutes < 0 →
      cfg.whatIsInvalid = some ("total earned minutes invalid: " ++ toString cfg.totalEarnedMinutes)) ∧
    (0 ≤ cfg.totalEarnedMinutes → cfg.totalMinutesPerPayPeriod ≤ 0 →
      cfg.whatIsInvalid
        = some ("total minutes per pay period invalid: " ++ toString cfg.totalMinutesPerPayPeriod)) ∧
    (0 ≤ cfg.totalEarnedMinutes → 0 < cfg.totalMinutesPerPayPeriod → cfg.targetHoursInMinutes ≤ 0 →
      cfg.whatIsInvalid = some ("target hours invalid: " ++ toString cfg.TargetHours)) ∧
    (0 ≤ cfg.totalEarnedMinutes → 0 < cfg.totalMinutesPerPayPeriod → 0 < cfg.targetHoursInMinutes →
      cfg.whatIsInvalid = none) := by
  refine ⟨?_, ?_, ?_, ?_⟩
  · intro h
    have : ¬ 0 ≤ cfg.totalEarnedMinutes := not_le.mpr h
    simp [TimeOffBuddyConfig.whatIsInvalid, TimeOffBuddyConfig.totalEarnedMinutesValid, this,
      sprintf_earned]
  · intro h1 h2
    have : ¬ 0 < cfg.totalMinutesPerPayPeriod := not_lt.mpr h2
    simp [TimeOffBuddyConfig.whatIsInvalid, TimeOffBuddyConfig.totalEarnedMinutesValid,
      TimeOffBuddyConfig.totalMinutesPerPayPeridValid, h1, this, sprintf_perPeriod]
  · intro h1 h2 h3
    have : ¬ 0 < cfg.targetHoursInMinutes := not_lt.mpr h3
    simp [TimeOffBuddyConfig.whatIsInvalid, TimeOffBuddyConfig.totalEarnedMinutesValid,
      TimeOffBuddyConfig.totalMinutesPerPayPeridValid, TimeOffBuddyConfig.targetHoursInMinutesValid,
      h1, h2, this, sprintf_target]
  · intro h1 h2 h3
    simp [TimeOffBuddyConfig.whatIsInvalid, TimeOffBuddyConfig.totalEarnedMinutesValid,
      TimeOffBuddyConfig.totalMinutesPerPayPeridValid, TimeOffBuddyConfig.targetHoursInMinutesValid,
      h1, h2, h3]

/-- The validator in terms of the three derived quantities. -/
theorem validateConfig_eq_true_iff (cfg : TimeOffBuddyConfig) :
    cfg.validateConfig = true ↔
      0 ≤ cfg.totalEarnedMinutes ∧ 0 < cfg.totalMinutesPerPayPeriod ∧ 0 < cfg.targetHoursInMinutes := by
  simp [TimeOffBuddyConfig.validateConfig, TimeOffBuddyConfig.totalEarnedMinutesValid,
    TimeOffBuddyConfig.totalMinutesPerPayPeridValid, TimeOffBuddyConfig.targetHoursInMinutesValid,
    and_assoc]

theorem progressLines_succ (t p : Int) (k : Nat) :
    progressLines t p (k + 1) = progressLine t :: progressLines (t + p) p k := by
  unfold progressLines
  rw [List.range_succ_eq_map]
  simp only [List.map_cons, List.map_map, Nat.cast_zero, zero_mul, add_zero]
  congr 1
  apply List.map_congr_left
  intro j _
  simp only [Function.comp_apply, Nat.cast_succ]
  congr 1
  ring

/-! ## The loop over the unbounded integers -/

/-- Whenever the loop exits, it does so after some number `k` of iterations: the
final total is `t + k * p`, the counter advanced by `k`, the exit test holds
there and failed at every earlier total. -/
theorem payPeriodsLoopMath_some (p g : Int) (v : Bool) :
    ∀ (fuel : Nat) (t pp : Int) (out : List String) (r : Int × Int × List String),
      payPeriodsLoopMath p g v fuel t pp out = some r →
      ∃ k : Nat, k ≤ fuel ∧
        r = (t + (k : Int) * p, pp + (k : Int),
              out ++ (if v then progressLines t p k else [])) ∧
        g ≤ t + (k : Int) * p ∧ ∀ j : Nat, j < k → t + (j : Int) * p < g := by
  intro fuel
  induction fuel with
  | zero =>
    intro t pp out r h
    unfold payPeriodsLoopMath at h
    split at h
    · exact absurd h (by simp)
    · rename_i hlt
      refine ⟨0, le_refl _, ?_, by simpa using hlt, fun j hj => absurd hj (Nat.not_lt_zero j)⟩
      cases v <;> simp [progressLines] at h ⊢ <;> exact h.symm
  | succ n ih =>
    intro t pp out r h
    unfold payPeriodsLoopMath at h
    split at h
    · rename_i hlt
      obtain ⟨k, hk, hr, hg, hmin⟩ := ih _ _ _ _ h
      refine ⟨k + 1, Nat.succ_le_succ hk, ?_, ?_, ?_⟩
      · rw [hr, progressLines_succ]
        cases v <;> simp [progressLine] <;> constructor <;> ring
      · have : t + ((k + 1 : Nat) : Int) * p = t + p + (k : Int) * p := by push_cast; ring
        rw [this]; exact hg
      · intro j hj
        cases j with
        | zero => simpa using hlt
        | succ i =>
          have := hmin i (Nat.lt_of_succ_lt_succ hj)
          have e : t + ((i + 1 : Nat) : Int) * p = t + p + (i : Int) * p := by push_cast; ring
          rw [e]; exact this
    · rename_i hlt
      refine ⟨0, Nat.zero_le _, ?_, by simpa using hlt, fun j hj => absurd hj (Nat.not_lt_zero j)⟩
      cases v <;> simp [progressLines] at h ⊢ <;> exact h.symm

/-- With a positive accrual the loop exits once the fuel covers the gap to the
target. -/
theorem payPeriodsLoopMath_isSome (p g : Int) (v : Bool) (hp : 0 < p) :
    ∀ (fuel : Nat) (t pp : Int) (out : List String), g - t ≤ (fuel : Int) →
      (payPeriodsLoopMath p g v fuel t pp out).isSome = true := by
  intro fuel
  induction fuel with
  | zero =>
    intro t pp out h
    unfold payPeriodsLoopMath
    have : ¬ t < g := by simp at h; omega
    simp [this]
  | succ n ih =>
    intro t pp out h
    unfold payPeriodsLoopMath
    split
    · apply ih
      push_cast at h
      omega
    · simp

/-- The exit index of the loop is determined by the running totals alone. -/
theorem exit_index_unique (t p g : Int) (k₁ k₂ : Nat)
    (h₁ : g ≤ t + (k₁ : Int) * p) (m₁ : ∀ j : Nat, j < k₁ → t + (j : Int) * p < g)
    (h₂ : g ≤ t + (k₂ : Int) * p) (m₂ : ∀ j : Nat, j < k₂ → t + (j : Int) * p < g) :
    k₁ = k₂ := by
  rcases Nat.lt_trichotomy k₁ k₂ with h | h | h
  · exact absurd (m₂ k₁ h) (not_lt.mpr h₁)
  · exact h
  · exact absurd (m₁ k₂ h) (not_lt.mpr h₂)

theorem progressLines_succ_last (t p : Int) (k : Nat) :
    progressLines t p (k + 1) = progressLines t p k ++ [progressLine (t + (k : Int) * p)] := by
  unfold progressLines
  rw [List.range_succ, List.map_append]
  rfl

/-! ## The simulator over the unbounded integers: what it returns -/

/-- Whenever `determinePayPeriodsMath` returns, it returns the number `k` of loop
iterations, with the `k + 1` progress lines when verbose and no line otherwise;
the exit test holds at `t + k * p` and failed at every earlier total. -/
theorem determinePayPeriodsMath_some (fuel : Nat) (t p g : Int) (v : Bool) (r : Int × List String)
    (h : determinePayPeriodsMath fuel t p g v = some r) :
    ∃ k : Nat, k ≤ fuel ∧
      r = ((k : Int), if v then progressLines t p (k + 1) else []) ∧
      g ≤ t + (k : Int) * p ∧ ∀ j : Nat, j < k → t + (j : Int) * p < g := by
  unfold determinePayPeriodsMath at h
  split at h
  · exact absurd h (by simp)
  · rename_i total payPeriods out hloop
    obtain ⟨k, hk, hr, hg, hmin⟩ := payPeriodsLoopMath_some p g v fuel t 0 [] _ hloop
    refine ⟨k, hk, ?_, hg, hmin⟩
    simp only [Prod.mk.injEq] at hr
    obtain ⟨h1, h2, h3⟩ := hr
    simp only [Option.some.injEq] at h
    rw [← h, h1, h2, h3, progressLines_succ_last]
    cases v <;> simp [progressLine]

/-- With a positive accrual `determinePayPeriodsMath` returns as soon as the fuel
covers the gap between the target and the starting total. -/
theorem determinePayPeriodsMath_isSome (fuel : Nat) (t p g : Int) (v : Bool) (hp : 0 < p)
    (hfuel : (g - t).toNat ≤ fuel) :
    ∃ r, determinePayPeriodsMath fuel t p g v = some r := by
  have hle : g - t ≤ (fuel : Int) := by omega
  have hs := payPeriodsLoopMath_isSome p g v hp fuel t 0 [] hle
  obtain ⟨x, hx⟩ := Option.isSome_iff_exists.mp hs
  obtain ⟨total, payPeriods, out⟩ := x
  unfold determinePayPeriodsMath
  rw [hx]
  exact ⟨_, rfl⟩

/-- Complete description of `determinePayPeriodsMath` for a positive accrual: there is
one exit index `k`; every run with enough fuel returns it (with its lines), and
no run returns anything else. -/
theorem determinePayPeriodsMath_spec (t p g : Int) (v : Bool) (hp : 0 < p) :
    ∃ k : Nat,
      (∀ fuel : Nat, (g - t).toNat ≤ fuel →
        determinePayPeriodsMath fuel t p g v
          = some ((k : Int), if v then progressLines t p (k + 1) else [])) ∧
      (∀ (fuel : Nat) (r : Int × List String), determinePayPeriodsMath fuel t p g v = some r →
        r = ((k : Int), if v then progressLines t p (k + 1) else [])) ∧
      g ≤ t + (k : Int) * p ∧ ∀ j : Nat, j < k → t + (j : Int) * p < g := by
  obtain ⟨r₀, hr₀⟩ := determinePayPeriodsMath_isSome (g - t).toNat t p g v hp (le_refl _)
  obtain ⟨k, _, hk, hg, hmin⟩ := determinePayPeriodsMath_some _ t p g v r₀ hr₀
  refine ⟨k, ?_, ?_, hg, hmin⟩
  · intro fuel hfuel
    obtain ⟨r, hr⟩ := determinePayPeriodsMath_isSome fuel t p g v hp hfuel
    obtain ⟨k', _, hk', hg', hmin'⟩ := determinePayPeriodsMath_some _ t p g v r hr
    have := exit_index_unique t p g k k' hg hmin hg' hmin'
    rw [hr, hk', this]
  · intro fuel r hr
    obtain ⟨k', _, hk', hg', hmin'⟩ := determinePayPeriodsMath_some _ t p g v r hr
    have := exit_index_unique t p g k k' hg hmin hg' hmin'
    rw [hk', this]

/-! ## What interactive mode prints -/

theorem promptOption_stdout (atoi : String → Option Int) (option : String) :
    ∀ (stdin : List String) (viper : Viper) (stdout : List String),
      ∃ ps : List String, (promptOption atoi option viper stdout stdin).stdout = stdout ++ ps ∧
        "No Time Off Earned\n" ∉ ps := by
  intro stdin
  induction stdin with
  | nil =>
    intro viper stdout
    refine ⟨_, rfl, ?_⟩
    simp only [List.mem_singleton]
    exact fun h => prompt_ne_noTimeOff _ _ h.symm
  | cons input rest ih =>
    intro viper stdout
    unfold promptOption
    have hne : "No Time Off Earned\n" ∉ ["Enter an Integer for the following: "
        ++ descriptions option ++ ": " ++ toString (viper.GetInt option) ++ ": "] := by
      simp only [List.mem_singleton]
      exact fun h => prompt_ne_noTimeOff _ _ h.symm
    simp only
    split
    · exact ⟨_, rfl, hne⟩
    · split
      · exact ⟨_, rfl, hne⟩
      · obtain ⟨ps, hps, hmem⟩ := ih viper (stdout ++ ["Enter an Integer for the following: "
          ++ descriptions option ++ ": " ++ toString (viper.GetInt option) ++ ": "])
        refine ⟨["Enter an Integer for the following: "
          ++ descriptions option ++ ": " ++ toString (viper.GetInt option) ++ ": "] ++ ps, ?_, ?_⟩
        · rw [hps, List.append_assoc]
        · intro hm
          rcases List.mem_append.mp hm with h | h
          · exact hne h
          · exact hmem h

theorem foldl_promptOption_stdout (atoi : String → Option Int) :
    ∀ (options : List String) (w : World),
      ∃ ps : List String,
        (options.foldl (fun (acc : World) option =>
          promptOption atoi option acc.viper acc.stdout acc.stdin) w).stdout = w.stdout ++ ps ∧
        "No Time Off Earned\n" ∉ ps := by
  intro options
  induction options with
  | nil => intro w; exact ⟨[], by simp, by simp⟩
  | cons o os ih =>
    intro w
    obtain ⟨p1, h1, m1⟩ := promptOption_stdout atoi o w.stdin w.viper w.stdout
    obtain ⟨p2, h2, m2⟩ := ih (promptOption atoi o w.viper w.stdout w.stdin)
    refine ⟨p1 ++ p2, ?_, ?_⟩
    · rw [List.foldl_cons, h2, h1, List.append_assoc]
    · intro hm
      rcases List.mem_append.mp hm with h | h
      · exact m1 h
      · exact m2 h

theorem interactiveMode_stdout (atoi : String → Option Int) (w : World) :
    ∃ ps : List String, (interactiveMode atoi w).stdout = w.stdout ++ ps ∧
      "No Time Off Earned\n" ∉ ps := by
  obtain ⟨ps, h, m⟩ := foldl_promptOption_stdout atoi standardOptions w
  refine ⟨ps ++ ["Enable Verbose Logging? y/n:"], ?_, ?_⟩
  · unfold interactiveMode
    simp only
    split <;> simp only [h, List.append_assoc]
  · intro hm
    rcases List.mem_append.mp hm with h' | h'
    · exact m h'
    · simp only [List.mem_singleton] at h'
      revert h'
      decide

/-! ## The orchestrator -/

/-- On a configuration that validates, `executeTimeOffBuddy` is the simulator run
on the three derived quantities (in the world left by interactive mode, if any). -/
theorem executeTimeOffBuddy_run (atoi : String → Option Int) (fuel : Nat) (w w1 : World)
    (hw : w1 = if isInteractive w.viper then interactiveMode atoi w else w)
    (hv : (newTimeOffBuddyConfig w1.viper).validateConfig = true) :
    executeTimeOffBuddy atoi fuel w =
      (determinePayPeriods fuel (newTimeOffBuddyConfig w1.viper).totalEarnedMinutes
        (newTimeOffBuddyConfig w1.viper).totalMinutesPerPayPeriod
        (newTimeOffBuddyConfig w1.viper).targetHoursInMinutes
        (newTimeOffBuddyConfig w1.viper).Verbose).map
        (fun r => (r.1, none, ⟨w1.viper, w1.stdin, w1.stdout ++ r.2⟩)) := by
  unfold executeTimeOffBuddy
  simp only [← hw, hv, if_true, TimeOffBuddyConfig.data]
  cases determinePayPeriods fuel (newTimeOffBuddyConfig w1.viper).totalEarnedMinutes
    (newTimeOffBuddyConfig w1.viper).totalMinutesPerPayPeriod
    (newTimeOffBuddyConfig w1.viper).targetHoursInMinutes
    (newTimeOffBuddyConfig w1.viper).Verbose <;> rfl

/-- What `RunE` does once `executeTimeOffBuddy` returned a non-negative count and no
error. -/
theorem RunE_of_count (atoi : String → Option Int) (fuel : Nat) (w w1 : World) (k : Nat)
    (h : executeTimeOffBuddy atoi fuel w = some ((k : Int), none, w1)) :
    RunE atoi fuel w
      = some (none, ⟨w1.viper, w1.stdin, w1.stdout ++ [toString (k : Int) ++ " pay periods\n"]⟩) := by
  have hk : ((k : Int) = MinInt) = False := by
    apply eq_false
    unfold MinInt
    omega
  unfold RunE
  rw [h]
  simp only [hk, if_false, sprintf_payPeriods]

theorem not_mem_progressLines (t p : Int) (k : Nat) :
    "No Time Off Earned\n" ∉ progressLines t p k := by
  intro hm
  obtain ⟨j, _, hj⟩ := List.mem_map.mp hm
  rw [progressLine, sprintf_progress] at hj
  exact progress_ne_noTimeOff _ _ hj

/-- Every configuration is the one built from some store, with interactive mode
off: the statements about `executeTimeOffBuddy` below cover all configurations. -/
theorem newTimeOffBuddyConfig_surjective (cfg : TimeOffBuddyConfig) :
    ∃ v : Viper, isInteractive v = false ∧ newTimeOffBuddyConfig v = cfg := by
  refine ⟨((((⟨fun _ => 0, fun _ => false⟩ : Viper).SetInt EARNED_HOURS_OPTION cfg.EarnedHours).SetInt
      EARNED_MINUTES_OPTION cfg.EarnedMinutes).SetInt HOURS_PER_PAY_PERIOD_OPTION
      cfg.HoursPerPayPeriod).SetInt MINUTES_PER_PAY_PERIOD_OPTION cfg.MinutesPerPayPeriod
      |>.SetInt TARGET_LONG_OPTION cfg.TargetHours |>.SetBool VERBOSE_LONG_OPTION cfg.Verbose,
    ?_, ?_⟩
  · simp [isInteractive, Viper.GetBool, Viper.SetBool, Viper.SetInt, INTERACTIVE_OPTION,
      VERBOSE_LONG_OPTION]
  · cases cfg
    simp [newTimeOffBuddyConfig, Viper.GetInt, Viper.GetBool, Viper.SetBool, Viper.SetInt,
      EARNED_HOURS_OPTION, EARNED_MINUTES_OPTION, HOURS_PER_PAY_PERIOD_OPTION,
      MINUTES_PER_PAY_PERIOD_OPTION, TARGET_LONG_OPTION, VERBOSE_LONG_OPTION]

/-- Outside interactive mode, on a configuration that validates,
`executeTimeOffBuddy` is the simulator run on the three derived quantities. -/
theorem executeTimeOffBuddy_of_valid (atoi : String → Option Int) (fuel : Nat) (w : World)
    (hi : isInteractive w.viper = false)
    (hv : (newTimeOffBuddyConfig w.viper).validateConfig = true) :
    executeTimeOffBuddy atoi fuel w =
      (determinePayPeriods fuel (newTimeOffBuddyConfig w.viper).totalEarnedMinutes
        (newTimeOffBuddyConfig w.viper).totalMinutesPerPayPeriod
        (newTimeOffBuddyConfig w.viper).targetHoursInMinutes
        (newTimeOffBuddyConfig w.viper).Verbose).map
        (fun r => (r.1, none, ⟨w.viper, w.stdin, w.stdout ++ r.2⟩)) := by
  unfold executeTimeOffBuddy
  simp only [hi, Bool.false_eq_true, if_false, hv, if_true, TimeOffBuddyConfig.data]
  cases determinePayPeriods fuel (newTimeOffBuddyConfig w.viper).totalEarnedMinutes
    (newTimeOffBuddyConfig w.viper).totalMinutesPerPayPeriod
    (newTimeOffBuddyConfig w.viper).targetHoursInMinutes
    (newTimeOffBuddyConfig w.viper).Verbose <;> rfl

/-- Outside interactive mode, on a configuration that does not validate,
`executeTimeOffBuddy` takes one of its two last branches, whatever the fuel. -/
theorem executeTimeOffBuddy_of_invalid (atoi : String → Option Int) (fuel : Nat) (w : World)
    (hi : isInteractive w.viper = false)
    (hv : (newTimeOffBuddyConfig w.viper).validateConfig = false) :
    executeTimeOffBuddy atoi fuel w =
      if (newTimeOffBuddyConfig w.viper).totalMinutesPerPayPeriod ≤ 0 then some (MinInt, none, w)
      else some (-1, (newTimeOffBuddyConfig w.viper).whatIsInvalid, w) := by
  unfold executeTimeOffBuddy
  simp only [hi, Bool.false_eq_true, if_false, hv]

/-! ## More on the loop over the integers, interactive mode and the orchestrator -/

/-- With a non-positive accrual and a total below the target the loop never
exits, whatever the fuel. -/
theorem payPeriodsLoopMath_none (p g : Int) (v : Bool) (hp : p ≤ 0) :
    ∀ (fuel : Nat) (t pp : Int) (out : List String), t < g →
      payPeriodsLoopMath p g v fuel t pp out = none := by
  intro fuel
  induction fuel with
  | zero =>
    intro t pp out h
    simp [payPeriodsLoopMath, h]
  | succ n ih =>
    intro t pp out h
    unfold payPeriodsLoopMath
    rw [if_pos h]
    exact ih _ _ _ (by omega)

/-- The running total and the counter of the loop do not depend on the verbose
flag (nor on the lines already printed). -/
theorem payPeriodsLoopMath_verbose (p g : Int) :
    ∀ (fuel : Nat) (t pp : Int) (out₁ out₂ : List String),
      (payPeriodsLoopMath p g true fuel t pp out₁).map (fun r => (r.1, r.2.1))
        = (payPeriodsLoopMath p g false fuel t pp out₂).map (fun r => (r.1, r.2.1)) := by
  intro fuel
  induction fuel with
  | zero =>
    intro t pp out₁ out₂
    unfold payPeriodsLoopMath
    split <;> rfl
  | succ n ih =>
    intro t pp out₁ out₂
    unfold payPeriodsLoopMath
    split
    · exact ih _ _ _ _
    · rfl

/-- The count of `determinePayPeriodsMath` does not depend on the verbose flag. -/
theorem determinePayPeriodsMath_verbose (fuel : Nat) (t p g : Int) :
    (determinePayPeriodsMath fuel t p g true).map Prod.fst
      = (determinePayPeriodsMath fuel t p g false).map Prod.fst := by
  have h := payPeriodsLoopMath_verbose p g fuel t 0 [] []
  unfold determinePayPeriodsMath
  cases h1 : payPeriodsLoopMath p g true fuel t 0 [] <;>
    cases h2 : payPeriodsLoopMath p g false fuel t 0 [] <;>
    rw [h1, h2] at h <;> simp at h ⊢
  exact h.2

/-- The general form of the last two branches of `executeTimeOffBuddy` (in the
world left by interactive mode, if any). -/
theorem executeTimeOffBuddy_stop (atoi : String → Option Int) (fuel : Nat) (w w1 : World)
    (hw : w1 = if isInteractive w.viper then interactiveMode atoi w else w)
    (hv : (newTimeOffBuddyConfig w1.viper).validateConfig = false) :
    executeTimeOffBuddy atoi fuel w =
      if (newTimeOffBuddyConfig w1.viper).totalMinutesPerPayPeriod ≤ 0 then some (MinInt, none, w1)
      else some (-1, (newTimeOffBuddyConfig w1.viper).whatIsInvalid, w1) := by
  unfold executeTimeOffBuddy
  simp only [← hw, hv, Bool.false_eq_true, if_false]

/-- A numeric prompt leaves the switches of the store as they were. -/
theorem promptOption_bools (atoi : String → Option Int) (option : String) :
    ∀ (stdin : List String) (viper : Viper) (stdout : List String),
      (promptOption atoi option viper stdout stdin).viper.bools = viper.bools := by
  intro stdin
  induction stdin with
  | nil => intro viper stdout; rfl
  | cons input rest ih =>
    intro viper stdout
    unfold promptOption
    simp only
    split
    · rfl
    · split
      · rfl
      · exact ih _ _

theorem foldl_promptOption_bools (atoi : String → Option Int) :
    ∀ (options : List String) (w : World),
      (options.foldl (fun (acc : World) option =>
        promptOption atoi option acc.viper acc.stdout acc.stdin) w).viper.bools
        = w.viper.bools := by
  intro options
  induction options with
  | nil => intro w; rfl
  | cons o os ih =>
    intro w
    rw [List.foldl_cons, ih, promptOption_bools]

/-- The verbose switch after interactive mode: on when the answer is `y`, as it
was before otherwise. -/
theorem verbose_after_interactiveMode (atoi : String → Option Int) (w : World) :
    (interactiveMode atoi w).viper.GetBool VERBOSE_LONG_OPTION
      = if verbosePromptAnswer atoi w = "y" then true
        else w.viper.GetBool VERBOSE_LONG_OPTION := by
  have hb := foldl_promptOption_bools atoi standardOptions w
  unfold interactiveMode verbosePromptAnswer
  simp only
  split
  · simp [Viper.GetBool, Viper.SetBool]
  · simp only [Viper.GetBool, hb]

/-- When the five numeric prompts are answered by empty lines, the next line is
the answer to the verbose prompt. -/
theorem verbosePromptAnswer_of_empty (atoi : String → Option Int) (v : Viper)
    (a : String) (rest out : List String) :
    verbosePromptAnswer atoi ⟨v, "" :: "" :: "" :: "" :: "" :: a :: rest, out⟩ = a := by
  simp [verbosePromptAnswer, standardOptions, promptOption]

/-- The exit index of the loop, for a total below the target and a positive
accrual, is the ceiling quotient. -/
theorem exit_index_eq_ceil (t p g : Int) (k : Nat) (hp : 0 < p) (ht : t < g)
    (hg : g ≤ t + (k : Int) * p) (hmin : ∀ j : Nat, j < k → t + (j : Int) * p < g) :
    (k : Int) = (g - t + p - 1) / p := by
  have hk : 0 < k := by
    rcases Nat.eq_zero_or_pos k with h | h
    · subst h
      simp at hg
      omega
    · exact h
  have hprev := hmin (k - 1) (by omega)
  have hcast : ((k - 1 : Nat) : Int) = (k : Int) - 1 := by omega
  rw [hcast] at hprev
  have e1 : ((k : Int) - 1) * p = (k : Int) * p - p := by ring
  have e2 : ((k : Int) + 1) * p = (k : Int) * p + p := by ring
  apply le_antisymm
  · apply Int.le_ediv_of_mul_le hp
    omega
  · apply Int.lt_add_one_iff.mp
    apply Int.ediv_lt_of_lt_mul hp
    omega

/-- The count of `determinePayPeriodsMath` is the same for any two values of the
verbose flag. -/
theorem determinePayPeriodsMath_verbose_any (fuel : Nat) (t p g : Int) (v₁ v₂ : Bool) :
    (determinePayPeriodsMath fuel t p g v₁).map Prod.fst
      = (determinePayPeriodsMath fuel t p g v₂).map Prod.fst := by
  cases v₁ <;> cases v₂
  · rfl
  · exact (determinePayPeriodsMath_verbose fuel t p g).symm
  · exact determinePayPeriodsMath_verbose fuel t p g
  · rfl

/-! ## Arithmetic of the 64-bit reduction -/

/-- An integer in the 64-bit range is its own reduction. -/
theorem wrapInt64_of_range (x : Int) (hlo : -9223372036854775808 ≤ x)
    (hhi : x ≤ 9223372036854775807) : wrapInt64 x = x := by
  unfold wrapInt64
  omega

/-- A reduced integer lies in the 64-bit range. -/
theorem wrapInt64_range (x : Int) : MinInt ≤ wrapInt64 x ∧ wrapInt64 x ≤ MaxInt := by
  unfold wrapInt64 MinInt MaxInt
  omega

/-- Reducing an operand before an addition does not change the reduced sum. -/
theorem wrapInt64_add_wrap (a b : Int) : wrapInt64 (wrapInt64 a + b) = wrapInt64 (a + b) := by
  unfold wrapInt64
  omega

/-- The earned minutes are the reduction of `EarnedHours*60 + EarnedMinutes`. -/
theorem totalEarnedMinutes_eq (cfg : TimeOffBuddyConfig) :
    cfg.totalEarnedMinutes = wrapInt64 (cfg.EarnedHours * 60 + cfg.EarnedMinutes) :=
  wrapInt64_add_wrap _ _

/-- The accrual per period is the reduction of
`HoursPerPayPeriod*60 + MinutesPerPayPeriod`. -/
theorem totalMinutesPerPayPeriod_eq (cfg : TimeOffBuddyConfig) :
    cfg.totalMinutesPerPayPeriod
      = wrapInt64 (cfg.HoursPerPayPeriod * 60 + cfg.MinutesPerPayPeriod) :=
  wrapInt64_add_wrap _ _

/-- Without overflow the three derived quantities are the mathematical ones. -/
theorem quantities_of_noOverflow (cfg : TimeOffBuddyConfig) (h : cfg.noOverflow) :
    cfg.totalEarnedMinutes = cfg.EarnedHours * 60 + cfg.EarnedMinutes ∧
    cfg.totalMinutesPerPayPeriod = cfg.HoursPerPayPeriod * 60 + cfg.MinutesPerPayPeriod ∧
    cfg.targetHoursInMinutes = cfg.TargetHours * 60 := by
  obtain ⟨⟨h1, h2⟩, ⟨h3, h4⟩, h5, h6⟩ := h
  unfold MinInt at h1 h3 h5
  unfold MaxInt at h2 h4 h6
  refine ⟨?_, ?_, ?_⟩
  · rw [totalEarnedMinutes_eq]; exact wrapInt64_of_range _ h1 h2
  · rw [totalMinutesPerPayPeriod_eq]; exact wrapInt64_of_range _ h3 h4
  · exact wrapInt64_of_range _ h5 h6

/-! ## The 64-bit loop -/

/-- The running total and the counter of the loop do not depend on the verbose
flag (nor on the lines already printed). -/
theorem payPeriodsLoop_verbose (p g : Int) :
    ∀ (fuel : Nat) (t pp : Int) (out₁ out₂ : List String),
      (payPeriodsLoop p g true fuel t pp out₁).map (fun r => (r.1, r.2.1))
        = (payPeriodsLoop p g false fuel t pp out₂).map (fun r => (r.1, r.2.1)) := by
  intro fuel
  induction fuel with
  | zero =>
    intro t pp out₁ out₂
    unfold payPeriodsLoop
    split <;> rfl
  | succ n ih =>
    intro t pp out₁ out₂
    unfold payPeriodsLoop
    split
    · exact ih _ _ _ _
    · rfl

/-- The count of `determinePayPeriods` does not depend on the verbose flag. -/
theorem determinePayPeriods_verbose (fuel : Nat) (t p g : Int) :
    (determinePayPeriods fuel t p g true).map Prod.fst
      = (determinePayPeriods fuel t p g false).map Prod.fst := by
  have h := payPeriodsLoop_verbose p g fuel t 0 [] []
  unfold determinePayPeriods
  cases h1 : payPeriodsLoop p g true fuel t 0 [] <;>
    cases h2 : payPeriodsLoop p g false fuel t 0 [] <;>
    rw [h1, h2] at h <;> simp at h ⊢
  exact h.2

/-- The count of `determinePayPeriods` is the same for any two values of the
verbose flag. -/
theorem determinePayPeriods_verbose_any (fuel : Nat) (t p g : Int) (v₁ v₂ : Bool) :
    (determinePayPeriods fuel t p g v₁).map Prod.fst
      = (determinePayPeriods fuel t p g v₂).map Prod.fst := by
  cases v₁ <;> cases v₂
  · rfl
  · exact (determinePayPeriods_verbose fuel t p g).symm
  · exact determinePayPeriods_verbose fuel t p g
  · rfl

/-- When the total already meets the target the loop makes no iteration. -/
theorem determinePayPeriods_of_ge (fuel : Nat) (t p g : Int) (v : Bool) (h : g ≤ t) :
    determinePayPeriods fuel t p g v = some (0, if v then [progressLine t] else []) := by
  have hlt : ¬ t < g := not_lt.mpr h
  have hloop : payPeriodsLoop p g v fuel t 0 [] = some (t, 0, []) := by
    cases fuel <;> simp [payPeriodsLoop, hlt]
  unfold determinePayPeriods
  rw [hloop]
  cases v <;> simp [progressLine]

/-- As long as no addition leaves the 64-bit range (`g + p ≤ MaxInt`, the total
starts in range, the counter has room for the remaining iterations), the 64-bit
loop and the loop over the integers are the same. -/
theorem payPeriodsLoop_eq_math (p g : Int) (v : Bool) (hp : 0 < p) (hb : g + p ≤ MaxInt) :
    ∀ (fuel : Nat) (t pp : Int) (out : List String), MinInt ≤ t → 0 ≤ pp →
      (t < g → pp + (g - t) ≤ MaxInt) →
      payPeriodsLoop p g v fuel t pp out = payPeriodsLoopMath p g v fuel t pp out := by
  unfold MaxInt at hb
  intro fuel
  induction fuel with
  | zero =>
    intro t pp out _ _ _
    rfl
  | succ n ih =>
    intro t pp out h0 hpp hroom
    unfold MinInt at h0
    unfold payPeriodsLoop payPeriodsLoopMath
    split
    · rename_i hlt
      have hr := hroom hlt
      unfold MaxInt at hr
      rw [wrapInt64_of_range (t + p) (by omega) (by omega),
        wrapInt64_of_range (pp + 1) (by omega) (by omega)]
      exact ih _ _ _ (by unfold MinInt; omega) (by omega) (fun _ => by unfold MaxInt; omega)
    · rfl

/-- The simulator equals its reading over the integers when no addition can
overflow. -/
theorem determinePayPeriods_eq_math (fuel : Nat) (t p g : Int) (v : Bool) (hp : 0 < p)
    (hb : g + p ≤ MaxInt) (ht : MinInt ≤ t) (hroom : g - t ≤ MaxInt) :
    determinePayPeriods fuel t p g v = determinePayPeriodsMath fuel t p g v := by
  unfold determinePayPeriods determinePayPeriodsMath
  rw [payPeriodsLoop_eq_math p g v hp hb fuel t 0 [] ht (le_refl 0) (fun _ => by omega)]

/-- Complete description of `determinePayPeriods` when no addition can overflow:
one exit index `k`, returned (with its lines) by every run with enough fuel, and
no run returns anything else. -/
theorem determinePayPeriods_spec (t p g : Int) (v : Bool) (hp : 0 < p)
    (hb : g + p ≤ MaxInt) (ht : MinInt ≤ t) (hroom : g - t ≤ MaxInt) :
    ∃ k : Nat,
      (∀ fuel : Nat, (g - t).toNat ≤ fuel →
        determinePayPeriods fuel t p g v
          = some ((k : Int), if v then progressLines t p (k + 1) else [])) ∧
      (∀ (fuel : Nat) (r : Int × List String), determinePayPeriods fuel t p g v = some r →
        r = ((k : Int), if v then progressLines t p (k + 1) else [])) ∧
      g ≤ t + (k : Int) * p ∧ ∀ j : Nat, j < k → t + (j : Int) * p < g := by
  obtain ⟨k, hrun, honly, hg, hmin⟩ := determinePayPeriodsMath_spec t p g v hp
  refine ⟨k, ?_, ?_, hg, hmin⟩
  · intro fuel hfuel
    rw [determinePayPeriods_eq_math fuel t p g v hp hb ht hroom]
    exact hrun fuel hfuel
  · intro fuel r hr
    rw [determinePayPeriods_eq_math fuel t p g v hp hb ht hroom] at hr
    exact honly fuel r hr

/-- The least-count property of an exit index. -/
theorem exit_index_least (t p g : Int) (k : Nat)
    (hmin : ∀ j : Nat, j < k → t + (j : Int) * p < g) (m : Int) (hm0 : 0 ≤ m)
    (hm : g ≤ t + m * p) : (k : Int) ≤ m := by
  by_contra hlt
  have hlt2 : m < (k : Int) := not_le.mp hlt
  have hj := hmin m.toNat (by omega)
  rw [Int.toNat_of_nonneg hm0] at hj
  exact absurd hm (not_le.mpr hj)

theorem progressLinesWrap_succ (t p : Int) (k : Nat) (hlo : MinInt ≤ t) (hhi : t ≤ MaxInt) :
    progressLinesWrap t p (k + 1)
      = progressLine t :: progressLinesWrap (wrapInt64 (t + p)) p k := by
  unfold MinInt at hlo
  unfold MaxInt at hhi
  unfold progressLinesWrap
  rw [List.range_succ_eq_map]
  simp only [List.map_cons, List.map_map, Nat.cast_zero, zero_mul, add_zero]
  rw [wrapInt64_of_range t hlo hhi]
  congr 1
  apply List.map_congr_left
  intro j _
  simp only [Function.comp_apply, Nat.cast_succ]
  rw [wrapInt64_add_wrap]
  congr 2
  ring

theorem progressLinesWrap_succ_last (t p : Int) (k : Nat) :
    progressLinesWrap t p (k + 1)
      = progressLinesWrap t p k ++ [progressLine (wrapInt64 (t + (k : Int) * p))] := by
  unfold progressLinesWrap
  rw [List.range_succ, List.map_append]
  rfl

/-- Whenever the 64-bit loop exits, it does so after some number `k` of
iterations: the final total is the reduction of `t + k * p`, the counter the
reduction of its start plus `k`, the exit test holds there and failed at every
earlier total. -/
theorem payPeriodsLoop_some (p g : Int) (v : Bool) :
    ∀ (fuel : Nat) (t c : Int) (out : List String) (r : Int × Int × List String),
      MinInt ≤ t → t ≤ MaxInt →
      payPeriodsLoop p g v fuel t (wrapInt64 c) out = some r →
      ∃ k : Nat, k ≤ fuel ∧
        r = (wrapInt64 (t + (k : Int) * p), wrapInt64 (c + (k : Int)),
              out ++ (if v then progressLinesWrap t p k else [])) ∧
        g ≤ wrapInt64 (t + (k : Int) * p) ∧
        ∀ j : Nat, j < k → wrapInt64 (t + (j : Int) * p) < g := by
  intro fuel
  induction fuel with
  | zero =>
    intro t c out r hlo hhi h
    have hw : wrapInt64 t = t := wrapInt64_of_range t hlo hhi
    unfold payPeriodsLoop at h
    split at h
    · exact absurd h (by simp)
    · rename_i hlt
      refine ⟨0, le_refl _, ?_, by simpa [hw] using hlt,
        fun j hj => absurd hj (Nat.not_lt_zero j)⟩
      cases v <;> simp [progressLinesWrap, hw] at h ⊢ <;> exact h.symm
  | succ n ih =>
    intro t c out r hlo hhi h
    have hw : wrapInt64 t = t := wrapInt64_of_range t hlo hhi
    unfold payPeriodsLoop at h
    split at h
    · rename_i hlt
      rw [wrapInt64_add_wrap] at h
      obtain ⟨k, hk, hr, hg, hmin⟩ :=
        ih _ _ _ _ (wrapInt64_range _).1 (wrapInt64_range _).2 h
      have e : ∀ i : Nat, wrapInt64 (wrapInt64 (t + p) + (i : Int) * p)
          = wrapInt64 (t + ((i + 1 : Nat) : Int) * p) := by
        intro i
        rw [wrapInt64_add_wrap]
        congr 1
        push_cast
        ring
      refine ⟨k + 1, Nat.succ_le_succ hk, ?_, ?_, ?_⟩
      · rw [hr, progressLinesWrap_succ t p k hlo hhi, e k]
        have ec : c + 1 + (k : Int) = c + ((k + 1 : Nat) : Int) := by push_cast; ring
        rw [ec]
        cases v <;> simp [progressLine]
      · rw [← e k]; exact hg
      · intro j hj
        cases j with
        | zero => simpa [hw] using hlt
        | succ i =>
          rw [← e i]
          exact hmin i (Nat.lt_of_succ_lt_succ hj)
    · rename_i hlt
      refine ⟨0, Nat.zero_le _, ?_, by simpa [hw] using hlt,
        fun j hj => absurd hj (Nat.not_lt_zero j)⟩
      cases v <;> simp [progressLinesWrap, hw] at h ⊢ <;> exact h.symm

/-- Whenever `determinePayPeriods` returns, on a total in the 64-bit range, it made
some number `k` of iterations: the count is the reduction of `k`, the lines (when
verbose) are those of the `k + 1` reduced running totals. -/
theorem determinePayPeriods_some (fuel : Nat) (t p g : Int) (v : Bool) (r : Int × List String)
    (hlo : MinInt ≤ t) (hhi : t ≤ MaxInt) (h : determinePayPeriods fuel t p g v = some r) :
    ∃ k : Nat, k ≤ fuel ∧
      r = (wrapInt64 (k : Int), if v then progressLinesWrap t p (k + 1) else []) ∧
      g ≤ wrapInt64 (t + (k : Int) * p) ∧
      ∀ j : Nat, j < k → wrapInt64 (t + (j : Int) * p) < g := by
  unfold determinePayPeriods at h
  split at h
  · exact absurd h (by simp)
  · rename_i total payPeriods out hloop
    have h0 : (0 : Int) = wrapInt64 0 := by decide
    rw [h0] at hloop
    obtain ⟨k, hk, hr, hg, hmin⟩ := payPeriodsLoop_some p g v fuel t 0 [] _ hlo hhi hloop
    refine ⟨k, hk, ?_, hg, hmin⟩
    simp only [Prod.mk.injEq] at hr
    obtain ⟨h1, h2, h3⟩ := hr
    simp only [Option.some.injEq] at h
    rw [← h, h1, h2, h3, progressLinesWrap_succ_last]
    cases v <;> simp [progressLine]

/-- With a positive accrual and `g + p ≤ MaxInt` the loop exits once the fuel covers
the gap to the target (the counter may wrap, the total does not). -/
theorem payPeriodsLoop_isSome (p g : Int) (v : Bool) (hp : 0 < p) (hb : g + p ≤ MaxInt) :
    ∀ (fuel : Nat) (t pp : Int) (out : List String), MinInt ≤ t → g - t ≤ (fuel : Int) →
      (payPeriodsLoop p g v fuel t pp out).isSome = true := by
  unfold MaxInt at hb
  intro fuel
  induction fuel with
  | zero =>
    intro t pp out _ h
    unfold payPeriodsLoop
    have : ¬ t < g := by simp at h; omega
    simp [this]
  | succ n ih =>
    intro t pp out hlo h
    unfold MinInt at hlo
    unfold payPeriodsLoop
    split
    · rw [wrapInt64_of_range (t + p) (by omega) (by omega)]
      apply ih
      · unfold MinInt; omega
      · push_cast at h
        omega
    · simp

theorem determinePayPeriods_isSome (fuel : Nat) (t p g : Int) (v : Bool) (hp : 0 < p)
    (hb : g + p ≤ MaxInt) (hlo : MinInt ≤ t) (hfuel : (g - t).toNat ≤ fuel) :
    ∃ r, determinePayPeriods fuel t p g v = some r := by
  have hle : g - t ≤ (fuel : Int) := by omega
  have hs := payPeriodsLoop_isSome p g v hp hb fuel t 0 [] hlo hle
  obtain ⟨x, hx⟩ := Option.isSome_iff_exists.mp hs
  obtain ⟨total, payPeriods, out⟩ := x
  unfold determinePayPeriods
  rw [hx]
  exact ⟨_, rfl⟩

/-- With a non-positive accrual and a total below the target, the 64-bit loop
does not exit as long as the total has not passed below `MinInt`. -/
theorem payPeriodsLoop_none (p g : Int) (v : Bool) (hp : p ≤ 0) :
    ∀ (fuel : Nat) (t pp : Int) (out : List String), t < g → t ≤ MaxInt →
      MinInt ≤ t + (fuel : Int) * p →
      payPeriodsLoop p g v fuel t pp out = none := by
  intro fuel
  induction fuel with
  | zero =>
    intro t pp out h _ _
    simp [payPeriodsLoop, h]
  | succ n ih =>
    intro t pp out h hhi hlo
    have hn : (n : Int) * p ≤ 0 := mul_nonpos_of_nonneg_of_nonpos (Int.ofNat_nonneg n) hp
    have e : ((n + 1 : Nat) : Int) * p = (n : Int) * p + p := by push_cast; ring
    rw [e] at hlo
    unfold MinInt at hlo
    unfold MaxInt at hhi
    unfold payPeriodsLoop
    rw [if_pos h, wrapInt64_of_range (t + p) (by omega) (by omega)]
    exact ih _ _ _ (by omega) (by unfold MaxInt; omega) (by unfold MinInt; omega)

/-- With accrual `2^62` and a target above `2^62`, the 64-bit totals cycle through
`0, 2^62, -2^63, -2^62` and the loop never exits. -/
theorem payPeriodsLoop_cycle (g : Int) (v : Bool) (hg : 4611686018427387904 < g) :
    ∀ (fuel : Nat) (t pp : Int) (out : List String),
      (t = 0 ∨ t = 4611686018427387904 ∨ t = -9223372036854775808 ∨
        t = -4611686018427387904) →
      payPeriodsLoop 4611686018427387904 g v fuel t pp out = none := by
  intro fuel
  induction fuel with
  | zero =>
    intro t pp out ht
    have : t < g := by omega
    simp [payPeriodsLoop, this]
  | succ n ih =>
    intro t pp out ht
    have hlt : t < g := by omega
    unfold payPeriodsLoop
    rw [if_pos hlt]
    apply ih
    unfold wrapInt64
    omega

/-! ## The counter and the printed lines of the 64-bit simulator -/

/-- From a total in `0 .. MaxInt` toward a positive target the simulator never
returns `MinInt`: the counter is `MinInt` only after a number of iterations that
is `2^63` modulo `2^64`, and then the total is back at its start or `2^63` below
it, under the target. -/
theorem determinePayPeriods_ne_MinInt (fuel : Nat) (t p g : Int) (v : Bool)
    (r : Int × List String) (h0 : 0 ≤ t) (hhi : t ≤ MaxInt) (hg : 0 < g)
    (h : determinePayPeriods fuel t p g v = some r) : r.1 ≠ MinInt := by
  obtain ⟨k, _, hr, hexit, hmin⟩ :=
    determinePayPeriods_some fuel t p g v r (by unfold MinInt; omega) hhi h
  rw [hr]
  show wrapInt64 (k : Int) ≠ MinInt
  intro hk
  unfold MaxInt at hhi
  obtain ⟨m, hm⟩ : ∃ m : Int, (k : Int) = 18446744073709551616 * m + 9223372036854775808 := by
    refine ⟨(k : Int) / 18446744073709551616, ?_⟩
    unfold wrapInt64 MinInt at hk
    omega
  have hkpos : 0 < k := by
    rcases Nat.eq_zero_or_pos k with hz | hz
    · subst hz
      revert hk
      decide
    · exact hz
  have ht : t < g := by
    have := hmin 0 hkpos
    simp only [Nat.cast_zero, zero_mul, add_zero] at this
    rwa [wrapInt64_of_range t (by omega) hhi] at this
  obtain ⟨q, s, hps, hs⟩ : ∃ q s : Int, p = 2 * q + s ∧ (s = 0 ∨ s = 1) :=
    ⟨p / 2, p % 2, by omega, by omega⟩
  have hkp : (k : Int) * p
      = 18446744073709551616 * (m * p + q) + 9223372036854775808 * s := by
    rw [hm]
    linear_combination 9223372036854775808 * hps
  rw [hkp] at hexit
  generalize m * p + q = z at hexit
  unfold wrapInt64 at hexit
  rcases hs with hs | hs <;> subst hs <;> omega

/-- Within `MaxInt` iterations the counter does not wrap: the count is not negative. -/
theorem determinePayPeriods_nonneg (fuel : Nat) (t p g : Int) (v : Bool)
    (r : Int × List String) (hlo : MinInt ≤ t) (hhi : t ≤ MaxInt)
    (hfuel : (fuel : Int) ≤ MaxInt) (h : determinePayPeriods fuel t p g v = some r) :
    0 ≤ r.1 := by
  obtain ⟨k, hk, hr, _, _⟩ := determinePayPeriods_some fuel t p g v r hlo hhi h
  rw [hr]
  show 0 ≤ wrapInt64 (k : Int)
  unfold MaxInt at hfuel
  rw [wrapInt64_of_range (k : Int) (by omega) (by omega)]
  exact Int.ofNat_nonneg k

/-- What `RunE` does once `executeTimeOffBuddy` returned a count other than the
sentinel and no error. -/
theorem RunE_of_result (atoi : String → Option Int) (fuel : Nat) (w w1 : World) (c : Int)
    (hc : c ≠ MinInt) (h : executeTimeOffBuddy atoi fuel w = some (c, none, w1)) :
    RunE atoi fuel w
      = some (none, ⟨w1.viper, w1.stdin, w1.stdout ++ [toString c ++ " pay periods\n"]⟩) := by
  unfold RunE
  rw [h]
  simp only [hc, if_false, sprintf_payPeriods]

theorem not_mem_progressLinesWrap (t p : Int) (k : Nat) :
    "No Time Off Earned\n" ∉ progressLinesWrap t p k := by
  intro hm
  obtain ⟨j, _, hj⟩ := List.mem_map.mp hm
  rw [progressLine, sprintf_progress] at hj
  exact progress_ne_noTimeOff _ _ hj

/-- What the world's output looks like after interactive mode, if any. -/
theorem stdout_after_prompts (atoi : String → Option Int) (w w1 : World)
    (hw : w1 = if isInteractive w.viper then interactiveMode atoi w else w) :
    ∃ ps : List String, w1.stdout = w.stdout ++ ps ∧ "No Time Off Earned\n" ∉ ps := by
  rw [hw]
  split
  · exact interactiveMode_stdout atoi w
  · exact ⟨[], by simp, by simp⟩

/-! ## The validator without overflow -/

/-- Without overflow, the validator in terms of the mathematical quantities. -/
theorem validateConfig_math_iff (cfg : TimeOffBuddyConfig) (hfit : cfg.noOverflow) :
    cfg.validateConfig = true ↔
      cfg.EarnedHours * 60 + cfg.EarnedMinutes ≥ 0 ∧
      cfg.HoursPerPayPeriod * 60 + cfg.MinutesPerPayPeriod > 0 ∧
      cfg.TargetHours * 60 > 0 := by
  obtain ⟨q1, q2, q3⟩ := quantities_of_noOverflow cfg hfit
  rw [validateConfig_eq_true_iff, q1, q2, q3]

/-- Without overflow, the branches of `whatIsInvalid` in terms of the mathematical
quantities. -/
theorem whatIsInvalid_cases_math (cfg : TimeOffBuddyConfig) (hfit : cfg.noOverflow) :
    (cfg.EarnedHours * 60 + cfg.EarnedMinutes < 0 →
      cfg.whatIsInvalid = some ("total earned minutes invalid: "
        ++ toString (cfg.EarnedHours * 60 + cfg.EarnedMinutes))) ∧
    (0 ≤ cfg.EarnedHours * 60 + cfg.EarnedMinutes →
      cfg.HoursPerPayPeriod * 60 + cfg.MinutesPerPayPeriod ≤ 0 →
      cfg.whatIsInvalid = some ("total minutes per pay period invalid: "
        ++ toString (cfg.HoursPerPayPeriod * 60 + cfg.MinutesPerPayPeriod))) ∧
    (0 ≤ cfg.EarnedHours * 60 + cfg.EarnedMinutes →
      0 < cfg.HoursPerPayPeriod * 60 + cfg.MinutesPerPayPeriod →
      cfg.TargetHours * 60 ≤ 0 →
      cfg.whatIsInvalid = some ("target hours invalid: " ++ toString cfg.TargetHours)) := by
  obtain ⟨q1, q2, q3⟩ := quantities_of_noOverflow cfg hfit
  obtain ⟨c1, c2, c3, _⟩ := whatIsInvalid_cases cfg
  rw [q1] at c1 c2 c3
  rw [q2] at c2 c3
  rw [q3] at c3
  exact ⟨c1, c2, c3⟩

/-! ## Claims -/

/-- C1, as stated, fails on 64-bit integers.  From 0 minutes, with accrual
`2^62 + 1` and target `2^62 + 5`, the second addition overflows: the program
returns 5, although 2 periods already reach the target over the integers.  So
the returned count is not always the least `n` with
`totalEarned + n*perPeriod ≥ target`. -/
theorem determinePayPeriods_not_least :
    determinePayPeriods 5 0 4611686018427387905 4611686018427387909 false = some (5, []) ∧
    (4611686018427387909 : Int) ≤ 0 + 2 * 4611686018427387905 ∧
    (4611686018427387909 : Int) ≤ MaxInt ∧
    ¬ ∀ (totalEarned perPeriod target : Int) (verbose : Bool) (fuel : Nat)
        (r : Int × List String),
        0 ≤ totalEarned → 0 < perPeriod → 0 < target →
        totalEarned ≤ MaxInt → perPeriod ≤ MaxInt → target ≤ MaxInt →
        determinePayPeriods fuel totalEarned perPeriod target verbose = some r →
        ∀ m : Int, 0 ≤ m → target ≤ totalEarned + m * perPeriod → r.1 ≤ m := by
  refine ⟨by decide, by decide, by decide, ?_⟩
  intro hall
  have h := hall 0 4611686018427387905 4611686018427387909 false 5 (5, [])
    (by decide) (by decide) (by decide) (by decide) (by decide) (by decide) (by decide)
    2 (by decide) (by decide)
  revert h
  decide

/-- C1, amended: for `totalEarned ≥ 0`, `perPeriod > 0`, `target > 0` with
`target + perPeriod ≤ 2^63 - 1` (no addition of the loop overflows) and either
value of `verbose`, `determinePayPeriods` returns (for every fuel covering the
gap `target - totalEarned`, and with no other value for any fuel) the smallest
non-negative integer `n` with `totalEarned + n * perPeriod ≥ target`: `n`
satisfies the inequality and no smaller non-negative integer does. -/
theorem determinePayPeriods_returns_least (totalEarned perPeriod target : Int) (verbose : Bool)
    (h0 : 0 ≤ totalEarned) (hp : 0 < perPeriod) (_ht : 0 < target)
    (hb : target + perPeriod ≤ MaxInt) :
    ∃ n : Int,
      (∀ fuel : Nat, (target - totalEarned).toNat ≤ fuel →
        (determinePayPeriods fuel totalEarned perPeriod target verbose).map Prod.fst = some n) ∧
      (∀ (fuel : Nat) (r : Int × List String),
        determinePayPeriods fuel totalEarned perPeriod target verbose = some r → r.1 = n) ∧
      0 ≤ n ∧ target ≤ totalEarned + n * perPeriod ∧
      ∀ m : Int, 0 ≤ m → target ≤ totalEarned + m * perPeriod → n ≤ m := by
  have hlo : MinInt ≤ totalEarned := by unfold MinInt; omega
  have hroom : target - totalEarned ≤ MaxInt := by
    unfold MaxInt at hb ⊢
    omega
  obtain ⟨k, hrun, honly, hg, hmin⟩ :=
    determinePayPeriods_spec totalEarned perPeriod target verbose hp hb hlo hroom
  refine ⟨(k : Int), ?_, ?_, Int.ofNat_nonneg k, hg, ?_⟩
  · intro fuel hfuel
    rw [hrun fuel hfuel]
    rfl
  · intro fuel r hr
    rw [honly fuel r hr]
  · intro m hm0 hm
    exact exit_index_least totalEarned perPeriod target k hmin m hm0 hm

/-- Witness for C1 (amended): from 30 minutes, 120 per period, target 60. -/
theorem determinePayPeriods_returns_least_witness :
    ∃ n : Int,
      (∀ fuel : Nat, ((60 : Int) - 30).toNat ≤ fuel →
        (determinePayPeriods fuel 30 120 60 true).map Prod.fst = some n) ∧
      (∀ (fuel : Nat) (r : Int × List String),
        determinePayPeriods fuel 30 120 60 true = some r → r.1 = n) ∧
      0 ≤ n ∧ (60 : Int) ≤ 30 + n * 120 ∧
      ∀ m : Int, 0 ≤ m → (60 : Int) ≤ 30 + m * 120 → n ≤ m :=
  determinePayPeriods_returns_least 30 120 60 true (by decide) (by decide) (by decide)
    (by decide)

/-- C2: whenever `total ≥ target`, `determinePayPeriods` returns 0, for every
`perPeriod` (zero and negative included), both values of `verbose` and every
fuel (no iteration is needed); the only output is the final progress line when
verbose. -/
theorem determinePayPeriods_zero_of_ge (fuel : Nat) (total perPeriod target : Int)
    (verbose : Bool) (h : total ≥ target) :
    (determinePayPeriods fuel total perPeriod target verbose).map Prod.fst = some 0 ∧
    determinePayPeriods fuel total perPeriod target verbose
      = some (0, if verbose then [toString (total.tdiv 60) ++ " hrs " ++
          toString (total.tmod 60) ++ " minutes earned\n"] else []) := by
  have hlt : ¬ total < target := not_lt.mpr h
  have hloop : payPeriodsLoop perPeriod target verbose fuel total 0 [] = some (total, 0, []) := by
    cases fuel <;> simp [payPeriodsLoop, hlt]
  have hrun : determinePayPeriods fuel total perPeriod target verbose
      = some (0, if verbose then [toString (total.tdiv 60) ++ " hrs " ++
          toString (total.tmod 60) ++ " minutes earned\n"] else []) := by
    unfold determinePayPeriods
    rw [hloop]
    cases verbose <;> simp [sprintf_progress]
  exact ⟨by rw [hrun]; rfl, hrun⟩

/-- Witness for C2: 40 hours earned, target 40 hours, a negative accrual, no fuel. -/
theorem determinePayPeriods_zero_of_ge_witness :
    (determinePayPeriods 0 2400 (-7) 2400 true).map Prod.fst = some 0 ∧
    determinePayPeriods 0 2400 (-7) 2400 true
      = some (0, if true then [toString ((2400 : Int).tdiv 60) ++ " hrs " ++
          toString ((2400 : Int).tmod 60) ++ " minutes earned\n"] else []) :=
  determinePayPeriods_zero_of_ge 0 2400 (-7) 2400 true (by decide)

/-- C3, as stated, fails on 64-bit integers.  With earned hours
153722867280912931 (accrual 1 hour, target 40 hours) the three mathematical
conditions hold, but `EarnedHours*60` overflows to -9223372036854775756 and
`validateConfig` is false. -/
theorem validateConfig_overflow :
    (TimeOffBuddyConfig.mk 153722867280912931 0 1 0 40 false).validateConfig = false ∧
    (TimeOffBuddyConfig.mk 153722867280912931 0 1 0 40 false).totalEarnedMinutes
      = -9223372036854775756 ∧
    ((153722867280912931 : Int) * 60 + 0 ≥ 0 ∧ (1 : Int) * 60 + 0 > 0 ∧ (40 : Int) * 60 > 0) ∧
    ¬ ∀ cfg : TimeOffBuddyConfig,
        cfg.validateConfig = true ↔
          cfg.EarnedHours * 60 + cfg.EarnedMinutes ≥ 0 ∧
          cfg.HoursPerPayPeriod * 60 + cfg.MinutesPerPayPeriod > 0 ∧
          cfg.TargetHours * 60 > 0 := by
  refine ⟨by decide, by decide, by decide, ?_⟩
  intro hall
  have h := (hall (TimeOffBuddyConfig.mk 153722867280912931 0 1 0 40 false)).mpr (by decide)
  revert h
  decide

/-- C3, amended: `validateConfig` is true exactly when the three quantities, as the
program computes them on 64-bit integers, satisfy
`wrap(wrap(EarnedHours*60) + EarnedMinutes) ≥ 0`,
`wrap(wrap(HoursPerPayPeriod*60) + MinutesPerPayPeriod) > 0` and
`wrap(TargetHours*60) > 0`; for every configuration whose three mathematical
quantities lie in `-2^63 .. 2^63 - 1` (no overflow) this is
`EarnedHours*60 + EarnedMinutes ≥ 0`, `HoursPerPayPeriod*60 + MinutesPerPayPeriod > 0`
and `TargetHours*60 > 0`; the `Verbose` field has no influence on the result. -/
theorem validateConfig_iff (cfg : TimeOffBuddyConfig) :
    (cfg.validateConfig = true ↔
      wrapInt64 (wrapInt64 (cfg.EarnedHours * 60) + cfg.EarnedMinutes) ≥ 0 ∧
      wrapInt64 (wrapInt64 (cfg.HoursPerPayPeriod * 60) + cfg.MinutesPerPayPeriod) > 0 ∧
      wrapInt64 (cfg.TargetHours * 60) > 0) ∧
    (cfg.noOverflow →
      (cfg.validateConfig = true ↔
        cfg.EarnedHours * 60 + cfg.EarnedMinutes ≥ 0 ∧
        cfg.HoursPerPayPeriod * 60 + cfg.MinutesPerPayPeriod > 0 ∧
        cfg.TargetHours * 60 > 0)) ∧
    ∀ b : Bool,
      (TimeOffBuddyConfig.mk cfg.EarnedHours cfg.EarnedMinutes cfg.HoursPerPayPeriod
        cfg.MinutesPerPayPeriod cfg.TargetHours b).validateConfig = cfg.validateConfig := by
  refine ⟨validateConfig_eq_true_iff cfg, validateConfig_math_iff cfg, ?_⟩
  intro b
  rfl

/-- Witness for C3 (amended): earned 0h30m, accrual 2h0m, target 1h validates. -/
theorem validateConfig_iff_witness :
    (TimeOffBuddyConfig.mk 0 30 2 0 1 false).noOverflow ∧
    ((TimeOffBuddyConfig.mk 0 30 2 0 1 false).validateConfig = true ↔
      (0 : Int) * 60 + 30 ≥ 0 ∧ (2 : Int) * 60 + 0 > 0 ∧ (1 : Int) * 60 > 0) :=
  ⟨by decide, (validateConfig_iff (TimeOffBuddyConfig.mk 0 30 2 0 1 false)).2.1 (by decide)⟩

/-- C4, as stated, fails on 64-bit integers.  With earned hours
-153722867280912931 and accrual 0 the mathematical earned minutes are negative,
but `EarnedHours*60` overflows to +9223372036854775756, the earned check passes
and the reported reason is the per-period one. -/
theorem whatIsInvalid_overflow_reason :
    (TimeOffBuddyConfig.mk (-153722867280912931) 0 0 0 40 false).validateConfig = false ∧
    (-153722867280912931 : Int) * 60 + 0 < 0 ∧
    (TimeOffBuddyConfig.mk (-153722867280912931) 0 0 0 40 false).totalEarnedMinutes
      = 9223372036854775756 ∧
    (TimeOffBuddyConfig.mk (-153722867280912931) 0 0 0 40 false).whatIsInvalid
      = some "total minutes per pay period invalid: 0" ∧
    ¬ ∀ cfg : TimeOffBuddyConfig, cfg.validateConfig = false →
        cfg.EarnedHours * 60 + cfg.EarnedMinutes < 0 →
        ∃ x : Int, cfg.whatIsInvalid = some ("total earned minutes invalid: " ++ toString x) := by
  refine ⟨by decide, by decide, by decide, by decide, ?_⟩
  intro hall
  obtain ⟨x, hx⟩ := hall (TimeOffBuddyConfig.mk (-153722867280912931) 0 0 0 40 false)
    (by decide) (by decide)
  have h0 : (TimeOffBuddyConfig.mk (-153722867280912931) 0 0 0 40 false).whatIsInvalid
      = some ("total minutes per pay period invalid: " ++ toString (0 : Int)) := by decide
  rw [h0, Option.some.injEq] at hx
  exact earned_ne_perPeriod _ _ hx.symm

/-- C4, amended: on a configuration that does not validate and whose three derived
quantities do not overflow (they lie in `-2^63 .. 2^63 - 1`), `whatIsInvalid`
returns one error, that of the first failing check in the order earned,
per-period, target: the earned-minutes reason whenever
`EarnedHours*60+EarnedMinutes < 0` (whatever the other fields), the per-period
reason whenever the earned minutes are valid and
`HoursPerPayPeriod*60+MinutesPerPayPeriod ≤ 0`, the target reason whenever both
pass and `TargetHours*60 ≤ 0`; the three reasons are different texts, so the
error is none of the two others. -/
theorem whatIsInvalid_first_failing (cfg : TimeOffBuddyConfig)
    (h : cfg.validateConfig = false) (hfit : cfg.noOverflow) :
    (∃ e : String, cfg.whatIsInvalid = some e) ∧
    (cfg.EarnedHours * 60 + cfg.EarnedMinutes < 0 →
      (∃ x : Int, cfg.whatIsInvalid = some ("total earned minutes invalid: " ++ toString x)) ∧
      (∀ x : Int, cfg.whatIsInvalid ≠ some ("total minutes per pay period invalid: " ++ toString x)) ∧
      (∀ x : Int, cfg.whatIsInvalid ≠ some ("target hours invalid: " ++ toString x))) ∧
    (cfg.EarnedHours * 60 + cfg.EarnedMinutes ≥ 0 →
      cfg.HoursPerPayPeriod * 60 + cfg.MinutesPerPayPeriod ≤ 0 →
      (∃ x : Int, cfg.whatIsInvalid = some ("total minutes per pay period invalid: " ++ toString x)) ∧
      (∀ x : Int, cfg.whatIsInvalid ≠ some ("total earned minutes invalid: " ++ toString x)) ∧
      (∀ x : Int, cfg.whatIsInvalid ≠ some ("target hours invalid: " ++ toString x))) ∧
    (cfg.EarnedHours * 60 + cfg.EarnedMinutes ≥ 0 →
      cfg.HoursPerPayPeriod * 60 + cfg.MinutesPerPayPeriod > 0 →
      cfg.TargetHours * 60 ≤ 0 →
      (∃ x : Int, cfg.whatIsInvalid = some ("target hours invalid: " ++ toString x)) ∧
      (∀ x : Int, cfg.whatIsInvalid ≠ some ("total earned minutes invalid: " ++ toString x)) ∧
      (∀ x : Int, cfg.whatIsInvalid ≠ some ("total minutes per pay period invalid: " ++ toString x))) := by
  obtain ⟨c1, c2, c3⟩ := whatIsInvalid_cases_math cfg hfit
  refine ⟨?_, ?_, ?_, ?_⟩
  · by_cases h1 : cfg.EarnedHours * 60 + cfg.EarnedMinutes < 0
    · exact ⟨_, c1 h1⟩
    · by_cases h2 : cfg.HoursPerPayPeriod * 60 + cfg.MinutesPerPayPeriod ≤ 0
      · exact ⟨_, c2 (not_lt.mp h1) h2⟩
      · by_cases h3 : cfg.TargetHours * 60 ≤ 0
        · exact ⟨_, c3 (not_lt.mp h1) (not_le.mp h2) h3⟩
        · have hv := (validateConfig_math_iff cfg hfit).mpr
            ⟨not_lt.mp h1, not_le.mp h2, not_le.mp h3⟩
          rw [h] at hv
          exact absurd hv (by simp)
  · intro h1
    have e := c1 h1
    refine ⟨⟨_, e⟩, ?_, ?_⟩
    · intro x hx
      rw [e, Option.some.injEq] at hx
      exact earned_ne_perPeriod _ _ hx
    · intro x hx
      rw [e, Option.some.injEq] at hx
      exact earned_ne_target _ _ hx
  · intro h1 h2
    have e := c2 h1 h2
    refine ⟨⟨_, e⟩, ?_, ?_⟩
    · intro x hx
      rw [e, Option.some.injEq] at hx
      exact earned_ne_perPeriod _ _ hx.symm
    · intro x hx
      rw [e, Option.some.injEq] at hx
      exact perPeriod_ne_target _ _ hx
  · intro h1 h2 h3
    have e := c3 h1 h2 h3
    refine ⟨⟨_, e⟩, ?_, ?_⟩
    · intro x hx
      rw [e, Option.some.injEq] at hx
      exact earned_ne_target _ _ hx.symm
    · intro x hx
      rw [e, Option.some.injEq] at hx
      exact perPeriod_ne_target _ _ hx.symm

/-- Witness for C4 (amended): with earned hours -1 and every other field 0 all
three checks fail, and the earned-minutes reason is the one reported. -/
theorem whatIsInvalid_first_failing_witness :
    (TimeOffBuddyConfig.mk (-1) 0 0 0 0 false).validateConfig = false ∧
    (TimeOffBuddyConfig.mk (-1) 0 0 0 0 false).noOverflow ∧
    ∃ x : Int, (TimeOffBuddyConfig.mk (-1) 0 0 0 0 false).whatIsInvalid
      = some ("total earned minutes invalid: " ++ toString x) :=
  ⟨by decide, by decide,
   ((whatIsInvalid_first_failing (TimeOffBuddyConfig.mk (-1) 0 0 0 0 false) (by decide)
      (by decide)).2.1 (by decide)).1⟩

/-- C5, as stated, fails.  On the target reason: with target hours -1 (earned 0,
accrual 1 hour) the configuration does not validate, its first failing check is
the target, whose minutes are -60, and the error is `target hours invalid: -1`:
it carries the hours.  On 64-bit integers: with earned hours 153722867280912931
the earned reason cites the overflowed -9223372036854775756, not
`EarnedHours*60+EarnedMinutes`. -/
theorem whatIsInvalid_target_not_minutes :
    (TimeOffBuddyConfig.mk 0 0 1 0 (-1) false).validateConfig = false ∧
    (TimeOffBuddyConfig.mk 0 0 1 0 (-1) false).totalEarnedMinutesValid = true ∧
    (TimeOffBuddyConfig.mk 0 0 1 0 (-1) false).totalMinutesPerPayPeridValid = true ∧
    (TimeOffBuddyConfig.mk 0 0 1 0 (-1) false).targetHoursInMinutes = -60 ∧
    (TimeOffBuddyConfig.mk 0 0 1 0 (-1) false).whatIsInvalid = some "target hours invalid: -1" ∧
    (TimeOffBuddyConfig.mk 0 0 1 0 (-1) false).whatIsInvalid ≠ some "target hours invalid: -60" ∧
    (TimeOffBuddyConfig.mk 153722867280912931 0 1 0 40 false).whatIsInvalid
      = some "total earned minutes invalid: -9223372036854775756" ∧
    ¬ ∀ cfg : TimeOffBuddyConfig, cfg.validateConfig = false →
        cfg.EarnedHours * 60 + cfg.EarnedMinutes ≥ 0 →
        cfg.HoursPerPayPeriod * 60 + cfg.MinutesPerPayPeriod > 0 →
        cfg.noOverflow →
        cfg.whatIsInvalid = some ("target hours invalid: " ++ toString (cfg.TargetHours * 60)) := by
  refine ⟨by decide, by decide, by decide, by decide, by decide, by decide, by decide, ?_⟩
  intro hall
  have h := hall (TimeOffBuddyConfig.mk 0 0 1 0 (-1) false) (by decide) (by decide) (by decide)
    (by decide)
  revert h
  decide

/-- C5, amended: on every configuration that does not validate and whose three
derived quantities do not overflow (they lie in `-2^63 .. 2^63 - 1`), the error of
`whatIsInvalid` carries the computed minutes `EarnedHours*60+EarnedMinutes` for
the earned reason and `HoursPerPayPeriod*60+MinutesPerPayPeriod` for the
per-period reason, and the target hours `TargetHours` (the field itself, in
hours) for the target reason. -/
theorem whatIsInvalid_value (cfg : TimeOffBuddyConfig) (h : cfg.validateConfig = false)
    (hfit : cfg.noOverflow) :
    (cfg.EarnedHours * 60 + cfg.EarnedMinutes < 0 ∧
      cfg.whatIsInvalid = some ("total earned minutes invalid: "
        ++ toString (cfg.EarnedHours * 60 + cfg.EarnedMinutes))) ∨
    (cfg.EarnedHours * 60 + cfg.EarnedMinutes ≥ 0 ∧
      cfg.HoursPerPayPeriod * 60 + cfg.MinutesPerPayPeriod ≤ 0 ∧
      cfg.whatIsInvalid = some ("total minutes per pay period invalid: "
        ++ toString (cfg.HoursPerPayPeriod * 60 + cfg.MinutesPerPayPeriod))) ∨
    (cfg.EarnedHours * 60 + cfg.EarnedMinutes ≥ 0 ∧
      cfg.HoursPerPayPeriod * 60 + cfg.MinutesPerPayPeriod > 0 ∧
      cfg.TargetHours * 60 ≤ 0 ∧
      cfg.whatIsInvalid = some ("target hours invalid: " ++ toString cfg.TargetHours)) := by
  obtain ⟨c1, c2, c3⟩ := whatIsInvalid_cases_math cfg hfit
  by_cases h1 : cfg.EarnedHours * 60 + cfg.EarnedMinutes < 0
  · exact Or.inl ⟨h1, c1 h1⟩
  · by_cases h2 : cfg.HoursPerPayPeriod * 60 + cfg.MinutesPerPayPeriod ≤ 0
    · exact Or.inr (Or.inl ⟨not_lt.mp h1, h2, c2 (not_lt.mp h1) h2⟩)
    · by_cases h3 : cfg.TargetHours * 60 ≤ 0
      · exact Or.inr (Or.inr ⟨not_lt.mp h1, not_le.mp h2, h3, c3 (not_lt.mp h1) (not_le.mp h2) h3⟩)
      · have hv := (validateConfig_math_iff cfg hfit).mpr
          ⟨not_lt.mp h1, not_le.mp h2, not_le.mp h3⟩
        rw [h] at hv
        exact absurd hv (by simp)

/-- Witness for C5 (amended): earned hours -1, accrual 1 hour, target 40 hours; the
error cites the earned minutes, -60. -/
theorem whatIsInvalid_value_witness :
    (TimeOffBuddyConfig.mk (-1) 0 1 0 40 false).validateConfig = false ∧
    (TimeOffBuddyConfig.mk (-1) 0 1 0 40 false).noOverflow ∧
    (TimeOffBuddyConfig.mk (-1) 0 1 0 40 false).whatIsInvalid
      = some "total earned minutes invalid: -60" ∧
    (((-1 : Int) * 60 + 0 < 0 ∧
      (TimeOffBuddyConfig.mk (-1) 0 1 0 40 false).whatIsInvalid
        = some ("total earned minutes invalid: " ++ toString ((-1 : Int) * 60 + 0))) ∨
    ((-1 : Int) * 60 + 0 ≥ 0 ∧ (1 : Int) * 60 + 0 ≤ 0 ∧
      (TimeOffBuddyConfig.mk (-1) 0 1 0 40 false).whatIsInvalid
        = some ("total minutes per pay period invalid: " ++ toString ((1 : Int) * 60 + 0))) ∨
    ((-1 : Int) * 60 + 0 ≥ 0 ∧ (1 : Int) * 60 + 0 > 0 ∧ (40 : Int) * 60 ≤ 0 ∧
      (TimeOffBuddyConfig.mk (-1) 0 1 0 40 false).whatIsInvalid
        = some ("target hours invalid: " ++ toString (40 : Int)))) :=
  ⟨by decide, by decide, by decide,
   whatIsInvalid_value (TimeOffBuddyConfig.mk (-1) 0 1 0 40 false) (by decide) (by decide)⟩

/-- C6, as stated, fails on 64-bit integers.  With accrual hours
-153722867280912931 (earned 0, target 40 hours) the mathematical accrual is
negative, but the product overflows to +9223372036854775756: the configuration
validates and the run returns one period with no error, not the sentinel. -/
theorem executeTimeOffBuddy_accrual_overflow :
    (-153722867280912931 : Int) * 60 + 0 ≤ 0 ∧
    (newTimeOffBuddyConfig
      (flagDefaults.SetInt HOURS_PER_PAY_PERIOD_OPTION (-153722867280912931))).totalMinutesPerPayPeriod
      = 9223372036854775756 ∧
    (executeTimeOffBuddy (fun _ => none) 1
        ⟨flagDefaults.SetInt HOURS_PER_PAY_PERIOD_OPTION (-153722867280912931), [], []⟩).map
      (fun r => (r.1, r.2.1)) = some (1, none) ∧
    ¬ ∀ (atoi : String → Option Int) (fuel : Nat) (w : World) (cfg : TimeOffBuddyConfig),
        isInteractive w.viper = false → newTimeOffBuddyConfig w.viper = cfg →
        cfg.HoursPerPayPeriod * 60 + cfg.MinutesPerPayPeriod ≤ 0 →
        executeTimeOffBuddy atoi fuel w = some (MinInt, none, w) := by
  refine ⟨by decide, by decide, by decide, ?_⟩
  intro hall
  have h := hall (fun _ => none) 1
    ⟨flagDefaults.SetInt HOURS_PER_PAY_PERIOD_OPTION (-153722867280912931), [], []⟩
    (TimeOffBuddyConfig.mk 0 0 (-153722867280912931) 0 40 false) (by decide) (by rfl)
    (by decide)
  have h2 := congrArg (Option.map (fun r => (r.1, r.2.1))) h
  revert h2
  decide

/-- C6, amended: outside interactive mode, for every configuration whose accrual per
period `HoursPerPayPeriod*60+MinutesPerPayPeriod` is `≤ 0` and not below `-2^63`
(it does not overflow), `executeTimeOffBuddy` returns the sentinel `math.MinInt`
with a nil error, whatever the earned and target fields are; the simulator is
not run: the result needs no fuel and the world (standard output included) is
left as it was. -/
theorem executeTimeOffBuddy_no_accrual (atoi : String → Option Int) (fuel : Nat) (w : World)
    (cfg : TimeOffBuddyConfig) (hi : isInteractive w.viper = false)
    (hc : newTimeOffBuddyConfig w.viper = cfg)
    (hlo : MinInt ≤ cfg.HoursPerPayPeriod * 60 + cfg.MinutesPerPayPeriod)
    (h : cfg.HoursPerPayPeriod * 60 + cfg.MinutesPerPayPeriod ≤ 0) :
    executeTimeOffBuddy atoi fuel w = some (MinInt, none, w) := by
  subst hc
  unfold MinInt at hlo
  have hq : (newTimeOffBuddyConfig w.viper).totalMinutesPerPayPeriod
      = (newTimeOffBuddyConfig w.viper).HoursPerPayPeriod * 60
        + (newTimeOffBuddyConfig w.viper).MinutesPerPayPeriod := by
    rw [totalMinutesPerPayPeriod_eq]
    exact wrapInt64_of_range _ hlo (by omega)
  have hle : (newTimeOffBuddyConfig w.viper).totalMinutesPerPayPeriod ≤ 0 := by
    rw [hq]; exact h
  have hv : (newTimeOffBuddyConfig w.viper).validateConfig = false := by
    cases hb : (newTimeOffBuddyConfig w.viper).validateConfig
    · rfl
    · have := ((validateConfig_eq_true_iff _).mp hb).2.1
      exact absurd hle (not_le.mpr this)
  rw [executeTimeOffBuddy_of_invalid atoi fuel w hi hv]
  exact if_pos hle

/-- Witness for C6 (amended): earned hours -1, accrual 0, target hours -3, no fuel. -/
theorem executeTimeOffBuddy_no_accrual_witness :
    executeTimeOffBuddy (fun _ => none) 0
        ⟨(flagDefaults.SetInt EARNED_HOURS_OPTION (-1)).SetInt TARGET_LONG_OPTION (-3), [], []⟩
      = some (MinInt, none,
        ⟨(flagDefaults.SetInt EARNED_HOURS_OPTION (-1)).SetInt TARGET_LONG_OPTION (-3), [], []⟩) :=
  executeTimeOffBuddy_no_accrual (fun _ => none) 0
    ⟨(flagDefaults.SetInt EARNED_HOURS_OPTION (-1)).SetInt TARGET_LONG_OPTION (-3), [], []⟩
    (TimeOffBuddyConfig.mk (-1) 0 0 0 (-3) false) (by decide) (by rfl) (by decide) (by decide)

/-- C7, as stated, fails on 64-bit integers.  With accrual 83333333333333333h20m
(`5*10^18` minutes) and target 100000000000000000h (`6*10^18` minutes), earned
0, the configuration validates and no derived quantity overflows, but the
second addition of the loop does: the run returns 5 periods, although 2 already
reach the target over the integers. -/
theorem executeTimeOffBuddy_not_least :
    (TimeOffBuddyConfig.mk 0 0 83333333333333333 20 100000000000000000 false).validateConfig
      = true ∧
    (TimeOffBuddyConfig.mk 0 0 83333333333333333 20 100000000000000000 false).noOverflow ∧
    (executeTimeOffBuddy (fun _ => none) 5
        ⟨((flagDefaults.SetInt HOURS_PER_PAY_PERIOD_OPTION 83333333333333333).SetInt
          MINUTES_PER_PAY_PERIOD_OPTION 20).SetInt TARGET_LONG_OPTION 100000000000000000,
          [], []⟩).map
      (fun r => (r.1, r.2.1)) = some (5, none) ∧
    (100000000000000000 : Int) * 60 ≤ 0 * 60 + 0 + 2 * (83333333333333333 * 60 + 20) ∧
    ¬ ∀ (atoi : String → Option Int) (fuel : Nat) (w : World) (cfg : TimeOffBuddyConfig)
        (r : Int × Option String × World),
        isInteractive w.viper = false → newTimeOffBuddyConfig w.viper = cfg →
        cfg.validateConfig = true → cfg.noOverflow →
        executeTimeOffBuddy atoi fuel w = some r →
        ∀ m : Int, 0 ≤ m →
          cfg.TargetHours * 60 ≤ cfg.EarnedHours * 60 + cfg.EarnedMinutes
            + m * (cfg.HoursPerPayPeriod * 60 + cfg.MinutesPerPayPeriod) →
          r.1 ≤ m := by
  refine ⟨by decide, by decide, by decide, by decide, ?_⟩
  intro hall
  have h := hall (fun _ => none) 5
    ⟨((flagDefaults.SetInt HOURS_PER_PAY_PERIOD_OPTION 83333333333333333).SetInt
      MINUTES_PER_PAY_PERIOD_OPTION 20).SetInt TARGET_LONG_OPTION 100000000000000000, [], []⟩
    (TimeOffBuddyConfig.mk 0 0 83333333333333333 20 100000000000000000 false)
    (5, none,
      ⟨((flagDefaults.SetInt HOURS_PER_PAY_PERIOD_OPTION 83333333333333333).SetInt
        MINUTES_PER_PAY_PERIOD_OPTION 20).SetInt TARGET_LONG_OPTION 100000000000000000, [], []⟩)
    (by decide) (by rfl) (by decide) (by decide) (by rfl) 2 (by decide) (by decide)
  revert h
  decide

/-- C7, amended: outside interactive mode, for every configuration that validates,
whose derived quantities do not overflow and with
`TargetHours*60 + (HoursPerPayPeriod*60+MinutesPerPayPeriod) ≤ 2^63 - 1` (no
addition of the loop overflows), `executeTimeOffBuddy` returns (for every fuel
covering the gap between target and earned minutes, and with no other value for
any fuel) a nil error and the count of `determinePayPeriods` applied to
`EarnedHours*60+EarnedMinutes`, `HoursPerPayPeriod*60+MinutesPerPayPeriod`,
`TargetHours*60` and `Verbose`; that count is the least `n ≥ 0` with
`earned + n*accrual ≥ target`. -/
theorem executeTimeOffBuddy_valid (atoi : String → Option Int) (w : World)
    (cfg : TimeOffBuddyConfig) (hi : isInteractive w.viper = false)
    (hc : newTimeOffBuddyConfig w.viper = cfg) (hv : cfg.validateConfig = true)
    (hfit : cfg.noOverflow)
    (hb : cfg.TargetHours * 60 + (cfg.HoursPerPayPeriod * 60 + cfg.MinutesPerPayPeriod)
      ≤ MaxInt) :
    ∃ n : Int,
      (∀ fuel : Nat,
        (cfg.TargetHours * 60 - (cfg.EarnedHours * 60 + cfg.EarnedMinutes)).toNat ≤ fuel →
        (executeTimeOffBuddy atoi fuel w).map (fun r => (r.1, r.2.1)) = some (n, none) ∧
        (determinePayPeriods fuel (cfg.EarnedHours * 60 + cfg.EarnedMinutes)
          (cfg.HoursPerPayPeriod * 60 + cfg.MinutesPerPayPeriod) (cfg.TargetHours * 60)
          cfg.Verbose).map Prod.fst = some n) ∧
      (∀ (fuel : Nat) (r : Int × Option String × World),
        executeTimeOffBuddy atoi fuel w = some r →
        r.2.1 = none ∧ r.1 = n ∧
        (determinePayPeriods fuel (cfg.EarnedHours * 60 + cfg.EarnedMinutes)
          (cfg.HoursPerPayPeriod * 60 + cfg.MinutesPerPayPeriod) (cfg.TargetHours * 60)
          cfg.Verbose).map Prod.fst = some r.1) ∧
      0 ≤ n ∧
      cfg.TargetHours * 60 ≤ cfg.EarnedHours * 60 + cfg.EarnedMinutes
        + n * (cfg.HoursPerPayPeriod * 60 + cfg.MinutesPerPayPeriod) ∧
      ∀ m : Int, 0 ≤ m →
        cfg.TargetHours * 60 ≤ cfg.EarnedHours * 60 + cfg.EarnedMinutes
          + m * (cfg.HoursPerPayPeriod * 60 + cfg.MinutesPerPayPeriod) →
        n ≤ m := by
  subst hc
  obtain ⟨q1, q2, q3⟩ := quantities_of_noOverflow _ hfit
  obtain ⟨h1, hp, h3⟩ := (validateConfig_math_iff _ hfit).mp hv
  have hlo : MinInt ≤ (newTimeOffBuddyConfig w.viper).EarnedHours * 60
      + (newTimeOffBuddyConfig w.viper).EarnedMinutes := by unfold MinInt; omega
  have hroom : (newTimeOffBuddyConfig w.viper).TargetHours * 60
      - ((newTimeOffBuddyConfig w.viper).EarnedHours * 60
        + (newTimeOffBuddyConfig w.viper).EarnedMinutes) ≤ MaxInt := by
    unfold MaxInt at hb ⊢
    omega
  obtain ⟨k, hrun, honly, hg, hmin⟩ :=
    determinePayPeriods_spec _ _ _ (newTimeOffBuddyConfig w.viper).Verbose hp hb hlo hroom
  have hex := fun fuel => executeTimeOffBuddy_of_valid atoi fuel w hi hv
  rw [q1, q2, q3] at hex
  refine ⟨(k : Int), ?_, ?_, Int.ofNat_nonneg k, hg, ?_⟩
  · intro fuel hfuel
    have e := hrun fuel hfuel
    constructor
    · rw [hex fuel, e]
      rfl
    · exact (congrArg (Option.map Prod.fst) e).trans rfl
  · intro fuel r hr
    rw [hex fuel] at hr
    obtain ⟨x, hx, hxr⟩ := Option.map_eq_some'.mp hr
    have e := honly fuel x hx
    subst hxr
    refine ⟨rfl, by rw [e], ?_⟩
    exact (congrArg (Option.map Prod.fst) hx).trans rfl
  · intro m hm0 hm
    exact exit_index_least _ _ _ k hmin m hm0 hm

set_option maxRecDepth 8000 in
/-- Witness for C7 (amended): the two scenarios of the specification.  Earned 0h0m,
accrual 1h0m, target 40h gives 40; earned 0h30m, accrual 2h0m, target 1h gives
1; and for the first one the count is the least `n ≥ 0` with `0 + n*60 ≥ 2400`. -/
theorem executeTimeOffBuddy_valid_witness :
    (executeTimeOffBuddy (fun _ => none) 40
        ⟨flagDefaults.SetInt HOURS_PER_PAY_PERIOD_OPTION 1, [], []⟩).map
      (fun r => (r.1, r.2.1)) = some (40, none) ∧
    (executeTimeOffBuddy (fun _ => none) 1
        ⟨((flagDefaults.SetInt EARNED_MINUTES_OPTION 30).SetInt HOURS_PER_PAY_PERIOD_OPTION 2).SetInt
          TARGET_LONG_OPTION 1, [], []⟩).map
      (fun r => (r.1, r.2.1)) = some (1, none) ∧
    ∃ n : Int,
      (∀ fuel : Nat, 2400 ≤ fuel →
        (executeTimeOffBuddy (fun _ => none) fuel
          ⟨flagDefaults.SetInt HOURS_PER_PAY_PERIOD_OPTION 1, [], []⟩).map
          (fun r => (r.1, r.2.1)) = some (n, none)) ∧
      0 ≤ n ∧ (2400 : Int) ≤ 0 + n * 60 ∧
      ∀ m : Int, 0 ≤ m → (2400 : Int) ≤ 0 + m * 60 → n ≤ m :=
  ⟨by decide, by decide,
   (executeTimeOffBuddy_valid (fun _ => none)
      ⟨flagDefaults.SetInt HOURS_PER_PAY_PERIOD_OPTION 1, [], []⟩
      (TimeOffBuddyConfig.mk 0 0 1 0 40 false) (by decide) (by rfl) (by decide) (by decide)
      (by decide)).imp
     fun _ h => ⟨fun fuel hf => (h.1 fuel hf).1, h.2.2.1, h.2.2.2.1, h.2.2.2.2⟩⟩

/-- C9, as stated, fails on 64-bit integers.  The counter itself wraps: from
`math.MinInt`, by 1, toward 0 the loop exits after `2^63` iterations and the
program returns `math.MinInt`, the no-accrual sentinel.  And a configuration
that validates need not print anything: with accrual 76861433640456465h4m
(`2^62` minutes) and target 100000000000000000h the totals cycle through
`0, 2^62, -2^63, -2^62` and `RunE` returns for no fuel. -/
theorem payPeriods_sentinel_reached :
    determinePayPeriods 9223372036854775808 MinInt 1 0 false = some (MinInt, []) ∧
    (TimeOffBuddyConfig.mk 0 0 76861433640456465 4 100000000000000000 false).validateConfig
      = true ∧
    (∀ fuel : Nat, RunE (fun _ => none) fuel
      ⟨((flagDefaults.SetInt HOURS_PER_PAY_PERIOD_OPTION 76861433640456465).SetInt
        MINUTES_PER_PAY_PERIOD_OPTION 4).SetInt TARGET_LONG_OPTION 100000000000000000,
        [], []⟩ = none) ∧
    ¬ ∀ (fuel : Nat) (total perPeriod target : Int) (verbose : Bool) (r : Int × List String),
        MinInt ≤ total → total ≤ MaxInt →
        determinePayPeriods fuel total perPeriod target verbose = some r → 0 ≤ r.1 := by
  have hret : determinePayPeriods 9223372036854775808 MinInt 1 0 false = some (MinInt, []) := by
    obtain ⟨r, hr⟩ := determinePayPeriods_isSome 9223372036854775808 MinInt 1 0 false
      (by decide) (by decide) (le_refl _) (by decide)
    obtain ⟨k, hk, hrk, hexit, _⟩ :=
      determinePayPeriods_some 9223372036854775808 MinInt 1 0 false r (le_refl _) (by decide) hr
    have hk2 : (k : Int) = 9223372036854775808 := by
      unfold wrapInt64 MinInt at hexit
      omega
    rw [hr, hrk, hk2]
    rfl
  refine ⟨hret, by decide, ?_, ?_⟩
  · intro fuel
    have hx : executeTimeOffBuddy (fun _ => none) fuel
        ⟨((flagDefaults.SetInt HOURS_PER_PAY_PERIOD_OPTION 76861433640456465).SetInt
          MINUTES_PER_PAY_PERIOD_OPTION 4).SetInt TARGET_LONG_OPTION 100000000000000000,
          [], []⟩ = none := by
      rw [executeTimeOffBuddy_of_valid (fun _ => none) fuel _ (by decide) (by decide)]
      have hloop := payPeriodsLoop_cycle 6000000000000000000 false (by decide) fuel 0 0 []
        (Or.inl rfl)
      have hdet : determinePayPeriods fuel 0 4611686018427387904 6000000000000000000 false
          = none := by
        unfold determinePayPeriods
        rw [hloop]
      exact (congrArg (Option.map _) hdet).trans rfl
    unfold RunE
    rw [hx]
  · intro hall
    have h := hall 9223372036854775808 MinInt 1 0 false (MinInt, []) (le_refl _) (by decide) hret
    revert h
    decide

/-- C9, amended.  For every input (a total in the 64-bit range) on which
`determinePayPeriods` terminates within `2^63 - 1` iterations, its result is a
non-negative integer, hence neither `math.MinInt` nor `-1`.  For a
configuration that validates (read from the store as interactive mode, if any,
left it), whenever the command returns it returns no error and prints, last,
the line `<N> pay periods`, and nothing it prints is the line
`No Time Off Earned`; it does return, with `N ≥ 0`, for every fuel covering the
gap between target and earned minutes when target minutes plus accrual are at
most `2^63 - 1`. -/
theorem payPeriods_never_sentinel :
    (∀ (fuel : Nat) (total perPeriod target : Int) (verbose : Bool) (r : Int × List String),
      MinInt ≤ total → total ≤ MaxInt → (fuel : Int) ≤ MaxInt →
      determinePayPeriods fuel total perPeriod target verbose = some r →
      0 ≤ r.1 ∧ r.1 ≠ MinInt ∧ r.1 ≠ -1) ∧
    (∀ (atoi : String → Option Int) (w w1 : World),
      w1 = (if isInteractive w.viper then interactiveMode atoi w else w) →
      (newTimeOffBuddyConfig w1.viper).validateConfig = true →
      (∀ (fuel : Nat) (r : Option String × World), RunE atoi fuel w = some r →
        r.1 = none ∧
        ∃ (N : Int) (printed : List String),
          r.2.stdout = w.stdout ++ printed ++ [toString N ++ " pay periods\n"] ∧
          "No Time Off Earned\n" ∉ printed ++ [toString N ++ " pay periods\n"]) ∧
      ((newTimeOffBuddyConfig w1.viper).targetHoursInMinutes
          + (newTimeOffBuddyConfig w1.viper).totalMinutesPerPayPeriod ≤ MaxInt →
        ∃ (N : Int) (printed : List String), 0 ≤ N ∧
          ∀ fuel : Nat,
            ((newTimeOffBuddyConfig w1.viper).targetHoursInMinutes
              - (newTimeOffBuddyConfig w1.viper).totalEarnedMinutes).toNat ≤ fuel →
            ∃ w2 : World, RunE atoi fuel w = some (none, w2) ∧
              w2.stdout = w.stdout ++ printed ++ [toString N ++ " pay periods\n"])) := by
  constructor
  · intro fuel total perPeriod target verbose r hlo hhi hfuel h
    have hnn := determinePayPeriods_nonneg fuel total perPeriod target verbose r hlo hhi hfuel h
    refine ⟨hnn, ?_, ?_⟩
    · intro he
      rw [he] at hnn
      revert hnn
      decide
    · intro he
      rw [he] at hnn
      revert hnn
      decide
  · intro atoi w w1 hw hv
    obtain ⟨h1, hp, h3⟩ := (validateConfig_eq_true_iff _).mp hv
    have hrange : (newTimeOffBuddyConfig w1.viper).totalEarnedMinutes ≤ MaxInt :=
      (wrapInt64_range _).2
    have hlo : MinInt ≤ (newTimeOffBuddyConfig w1.viper).totalEarnedMinutes := by
      unfold MinInt; omega
    obtain ⟨ps, hps, hpsmem⟩ := stdout_after_prompts atoi w w1 hw
    have hex := fun fuel => executeTimeOffBuddy_run atoi fuel w w1 hw hv
    constructor
    · intro fuel r hr
      cases hdet : determinePayPeriods fuel (newTimeOffBuddyConfig w1.viper).totalEarnedMinutes
          (newTimeOffBuddyConfig w1.viper).totalMinutesPerPayPeriod
          (newTimeOffBuddyConfig w1.viper).targetHoursInMinutes
          (newTimeOffBuddyConfig w1.viper).Verbose with
      | none =>
        have hx := hex fuel
        rw [hdet] at hx
        unfold RunE at hr
        rw [hx] at hr
        exact absurd hr (by simp)
      | some x =>
        have hne := determinePayPeriods_ne_MinInt fuel _ _ _ _ x h1 hrange h3 hdet
        obtain ⟨k, _, hxk, _, _⟩ := determinePayPeriods_some fuel _ _ _ _ x hlo hrange hdet
        have hx := hex fuel
        rw [hdet] at hx
        have hrun := RunE_of_result atoi fuel w _ x.1 hne hx
        rw [hrun, Option.some.injEq] at hr
        subst hr
        refine ⟨rfl, x.1, ps ++ x.2, ?_, ?_⟩
        · show w1.stdout ++ x.2 ++ [toString x.1 ++ " pay periods\n"] = _
          rw [hps]
          simp only [List.append_assoc]
        · intro hm
          rcases List.mem_append.mp hm with hm1 | hm1
          · rcases List.mem_append.mp hm1 with hm2 | hm2
            · exact hpsmem hm2
            · rw [hxk] at hm2
              revert hm2
              show "No Time Off Earned\n" ∉ _
              split
              · exact not_mem_progressLinesWrap _ _ _
              · simp
          · simp only [List.mem_singleton] at hm1
            exact payPeriods_ne_noTimeOff _ hm1.symm
    · intro hb
      have hroom : (newTimeOffBuddyConfig w1.viper).targetHoursInMinutes
          - (newTimeOffBuddyConfig w1.viper).totalEarnedMinutes ≤ MaxInt := by
        unfold MaxInt at hb ⊢
        omega
      obtain ⟨k, hrun, _, _, _⟩ :=
        determinePayPeriods_spec _ _ _ (newTimeOffBuddyConfig w1.viper).Verbose hp hb hlo hroom
      refine ⟨(k : Int), ps ++ (if (newTimeOffBuddyConfig w1.viper).Verbose then
          progressLines (newTimeOffBuddyConfig w1.viper).totalEarnedMinutes
            (newTimeOffBuddyConfig w1.viper).totalMinutesPerPayPeriod (k + 1)
        else []), Int.ofNat_nonneg k, ?_⟩
      intro fuel hfuel
      have hx := hex fuel
      rw [hrun fuel hfuel] at hx
      rw [RunE_of_count atoi fuel w _ k hx, hps]
      exact ⟨_, rfl, by simp only [List.append_assoc]⟩

set_option maxRecDepth 8000 in
/-- Witness for C9 (amended): a run that returns 1, and the run of the command on
earned 0h0m, accrual 1h0m, target 40h, which prints `40 pay periods` only. -/
theorem payPeriods_never_sentinel_witness :
    ((0 : Int) ≤ 1 ∧ (1 : Int) ≠ MinInt ∧ (1 : Int) ≠ -1) ∧
    (RunE (fun _ => none) 40 ⟨flagDefaults.SetInt HOURS_PER_PAY_PERIOD_OPTION 1, [], []⟩).map
      (fun r => (r.1, r.2.stdout)) = some (none, ["40 pay periods\n"]) ∧
    (∀ (fuel : Nat) (r : Option String × World),
      RunE (fun _ => none) fuel ⟨flagDefaults.SetInt HOURS_PER_PAY_PERIOD_OPTION 1, [], []⟩
        = some r →
      r.1 = none ∧
      ∃ (N : Int) (printed : List String),
        r.2.stdout = [] ++ printed ++ [toString N ++ " pay periods\n"] ∧
        "No Time Off Earned\n" ∉ printed ++ [toString N ++ " pay periods\n"]) ∧
    ∃ (N : Int) (printed : List String), 0 ≤ N ∧
      ∀ fuel : Nat, 2400 ≤ fuel →
        ∃ w2 : World,
          RunE (fun _ => none) fuel ⟨flagDefaults.SetInt HOURS_PER_PAY_PERIOD_OPTION 1, [], []⟩
            = some (none, w2) ∧
          w2.stdout = [] ++ printed ++ [toString N ++ " pay periods\n"] :=
  ⟨payPeriods_never_sentinel.1 5 30 120 60 true
      (1, ["0 hrs 30 minutes earned\n", "2 hrs 30 minutes earned\n"])
      (by decide) (by decide) (by decide) (by decide),
   by decide,
   (payPeriods_never_sentinel.2 (fun _ => none)
      ⟨flagDefaults.SetInt HOURS_PER_PAY_PERIOD_OPTION 1, [], []⟩
      ⟨flagDefaults.SetInt HOURS_PER_PAY_PERIOD_OPTION 1, [], []⟩ (by rfl) (by decide)).1,
   (payPeriods_never_sentinel.2 (fun _ => none)
      ⟨flagDefaults.SetInt HOURS_PER_PAY_PERIOD_OPTION 1, [], []⟩
      ⟨flagDefaults.SetInt HOURS_PER_PAY_PERIOD_OPTION 1, [], []⟩ (by rfl) (by decide)).2
     (by decide)⟩

/-- C10, as stated, fails on 64-bit integers.  From 0 minutes, with accrual
`2^62 + 1` and target `2^62 + 5`, verbose: the running total overflows, the
program returns 5 and prints 6 lines, among them negative totals, where
`totalEarned + k*perPeriod` reaches the target at `k = 2` (3 lines). -/
theorem progress_lines_overflow :
    determinePayPeriods 5 0 4611686018427387905 4611686018427387909 true
      = some (5,
          ["0 hrs 0 minutes earned\n", "76861433640456465 hrs 5 minutes earned\n",
           "-153722867280912930 hrs -6 minutes earned\n",
           "-76861433640456465 hrs -1 minutes earned\n",
           "0 hrs 4 minutes earned\n", "76861433640456465 hrs 9 minutes earned\n"]) ∧
    (4611686018427387909 : Int) ≤ 0 + 2 * 4611686018427387905 ∧
    ¬ ∀ (totalEarned perPeriod target : Int) (fuel : Nat) (n : Int) (lines : List String),
        0 < perPeriod → MinInt ≤ totalEarned → totalEarned ≤ MaxInt →
        determinePayPeriods fuel totalEarned perPeriod target true = some (n, lines) →
        ∀ k : Nat, (k : Int) ≤ n →
          lines[k]? = some
            (toString ((totalEarned + (k : Int) * perPeriod).tdiv 60) ++ " hrs " ++
              toString ((totalEarned + (k : Int) * perPeriod).tmod 60) ++ " minutes earned\n") := by
  refine ⟨by decide, by decide, ?_⟩
  intro hall
  have h := hall 0 4611686018427387905 4611686018427387909 5 5 _
    (by decide) (by decide) (by decide)
    (by decide : determinePayPeriods 5 0 4611686018427387905 4611686018427387909 true
      = some (5,
          ["0 hrs 0 minutes earned\n", "76861433640456465 hrs 5 minutes earned\n",
           "-153722867280912930 hrs -6 minutes earned\n",
           "-76861433640456465 hrs -1 minutes earned\n",
           "0 hrs 4 minutes earned\n", "76861433640456465 hrs 9 minutes earned\n"]))
    2 (by decide)
  revert h
  decide

/-- C10, amended: with a positive accrual, a total not below `-2^63` and no overflow
(`target + perPeriod ≤ 2^63 - 1` and `target - totalEarned ≤ 2^63 - 1`) there is a
count `n` (the exit index of the loop: the target is met at
`totalEarned + n*perPeriod` and at no earlier total) such that every run with
fuel covering the gap returns `n`; with verbose unset it prints no line, and
with verbose set it prints exactly `n + 1` lines, the `k`-th (for `k = 0..n`)
reporting `t_k = totalEarned + k*perPeriod` as `t_k / 60` hours and `t_k % 60`
minutes with truncating division and its remainder. -/
theorem determinePayPeriods_progress (totalEarned perPeriod target : Int) (hp : 0 < perPeriod)
    (hlo : MinInt ≤ totalEarned) (hb : target + perPeriod ≤ MaxInt)
    (hroom : target - totalEarned ≤ MaxInt) :
    ∃ n : Nat,
      target ≤ totalEarned + (n : Int) * perPeriod ∧
      (∀ k : Nat, k < n → totalEarned + (k : Int) * perPeriod < target) ∧
      ∀ fuel : Nat, (target - totalEarned).toNat ≤ fuel →
        determinePayPeriods fuel totalEarned perPeriod target false = some ((n : Int), []) ∧
        ∃ lines : List String,
          determinePayPeriods fuel totalEarned perPeriod target true = some ((n : Int), lines) ∧
          lines.length = n + 1 ∧
          ∀ k : Nat, k ≤ n →
            lines[k]? = some
              (toString ((totalEarned + (k : Int) * perPeriod).tdiv 60) ++ " hrs " ++
                toString ((totalEarned + (k : Int) * perPeriod).tmod 60) ++ " minutes earned\n") := by
  obtain ⟨n, hrunT, _, hg, hmin⟩ :=
    determinePayPeriods_spec totalEarned perPeriod target true hp hb hlo hroom
  obtain ⟨n', hrunF, _, hg', hmin'⟩ :=
    determinePayPeriods_spec totalEarned perPeriod target false hp hb hlo hroom
  have hn : n' = n := exit_index_unique totalEarned perPeriod target n' n hg' hmin' hg hmin
  subst hn
  refine ⟨n', hg, hmin, ?_⟩
  intro fuel hfuel
  refine ⟨by rw [hrunF fuel hfuel]; rfl, progressLines totalEarned perPeriod (n' + 1), ?_, ?_, ?_⟩
  · rw [hrunT fuel hfuel]; rfl
  · simp [progressLines]
  · intro k hk
    have hk2 : k < n' + 1 := Nat.lt_succ_of_le hk
    simp [progressLines, List.getElem?_map, List.getElem?_range, hk2, progressLine,
      sprintf_progress]

/-- Witness for C10 (amended): from -90 minutes, 60 per period, target 0: two
periods and three lines, the negative totals reported with truncating division. -/
theorem determinePayPeriods_progress_witness :
    determinePayPeriods 90 (-90) 60 0 true
      = some (2, ["-1 hrs -30 minutes earned\n", "0 hrs -30 minutes earned\n",
          "0 hrs 30 minutes earned\n"]) ∧
    determinePayPeriods 90 (-90) 60 0 false = some (2, []) ∧
    ∃ n : Nat,
      (0 : Int) ≤ -90 + (n : Int) * 60 ∧
      (∀ k : Nat, k < n → (-90 : Int) + (k : Int) * 60 < 0) ∧
      ∀ fuel : Nat, ((0 : Int) - (-90)).toNat ≤ fuel →
        determinePayPeriods fuel (-90) 60 0 false = some ((n : Int), []) ∧
        ∃ lines : List String,
          determinePayPeriods fuel (-90) 60 0 true = some ((n : Int), lines) ∧
          lines.length = n + 1 ∧
          ∀ k : Nat, k ≤ n →
            lines[k]? = some
              (toString (((-90 : Int) + (k : Int) * 60).tdiv 60) ++ " hrs " ++
                toString (((-90 : Int) + (k : Int) * 60).tmod 60) ++ " minutes earned\n") :=
  ⟨by decide, by decide,
   determinePayPeriods_progress (-90) 60 0 (by decide) (by decide) (by decide) (by decide)⟩

/-- C11, as stated, fails on 64-bit integers for a negative accrual: the running
total passes below `-2^63`, wraps around to a large value and the loop exits.
From `math.MinInt`, by -1, toward 0 the program returns 1; from 0, by `-2^62`,
toward 1 it returns 3. -/
theorem determinePayPeriods_negative_accrual_exits :
    determinePayPeriods 1 MinInt (-1) 0 false = some (1, []) ∧
    determinePayPeriods 3 0 (-4611686018427387904) 1 false = some (3, []) ∧
    ¬ ∀ (total perPeriod target : Int) (verbose : Bool) (fuel : Nat),
        perPeriod ≤ 0 → total < target → MinInt ≤ total → target ≤ MaxInt →
        MinInt ≤ perPeriod →
        determinePayPeriods fuel total perPeriod target verbose = none := by
  refine ⟨by decide, by decide, ?_⟩
  intro hall
  have h := hall MinInt (-1) 0 false 1 (by decide) (by decide) (by decide) (by decide)
    (by decide)
  revert h
  decide

/-- C11, amended: for every `perPeriod ≤ 0` and every `total < target` (64-bit
integers), over the mathematical integers the loop never reaches its exit
condition: for every `n ≥ 0`, `total + n*perPeriod < target`, no period count
exists and the loop over the integers returns for no fuel.  The program itself
does not exit within `n` iterations as long as `total + n*perPeriod ≥ -2^63` (the
running total has not wrapped around); for `perPeriod = 0` that is every `n`, so
it loops without end. -/
theorem determinePayPeriods_diverges (total perPeriod target : Int) (verbose : Bool)
    (hp : perPeriod ≤ 0) (ht : total < target) (hlo : MinInt ≤ total) (hhi : total ≤ MaxInt) :
    (∀ n : Int, 0 ≤ n → total + n * perPeriod < target) ∧
    (¬ ∃ n : Int, 0 ≤ n ∧ target ≤ total + n * perPeriod) ∧
    (∀ fuel : Nat, determinePayPeriodsMath fuel total perPeriod target verbose = none) ∧
    (∀ fuel : Nat, MinInt ≤ total + (fuel : Int) * perPeriod →
      determinePayPeriods fuel total perPeriod target verbose = none) ∧
    (perPeriod = 0 →
      ∀ fuel : Nat, determinePayPeriods fuel total perPeriod target verbose = none) := by
  have hall : ∀ n : Int, 0 ≤ n → total + n * perPeriod < target := by
    intro n hn
    have : n * perPeriod ≤ 0 := mul_nonpos_of_nonneg_of_nonpos hn hp
    omega
  have hrun : ∀ fuel : Nat, MinInt ≤ total + (fuel : Int) * perPeriod →
      determinePayPeriods fuel total perPeriod target verbose = none := by
    intro fuel hf
    unfold determinePayPeriods
    rw [payPeriodsLoop_none perPeriod target verbose hp fuel total 0 [] ht hhi hf]
  refine ⟨hall, ?_, ?_, hrun, ?_⟩
  · rintro ⟨n, hn, hge⟩
    exact absurd (hall n hn) (not_lt.mpr hge)
  · intro fuel
    unfold determinePayPeriodsMath
    rw [payPeriodsLoopMath_none perPeriod target verbose hp fuel total 0 [] ht]
  · intro h0 fuel
    apply hrun
    rw [h0]
    simpa using hlo

/-- Witness for C11 (amended): from 0 minutes with accrual 0 toward a target of
2400 minutes; and with accrual -5, fifty iterations. -/
theorem determinePayPeriods_diverges_witness :
    (∀ fuel : Nat, determinePayPeriods fuel 0 0 2400 true = none) ∧
    (∀ n : Int, 0 ≤ n → (0 : Int) + n * (-5) < 2400) ∧
    determinePayPeriods 50 0 (-5) 2400 false = none :=
  ⟨(determinePayPeriods_diverges 0 0 2400 true (by decide) (by decide) (by decide)
      (by decide)).2.2.2.2 rfl,
   (determinePayPeriods_diverges 0 (-5) 2400 false (by decide) (by decide) (by decide)
      (by decide)).1,
   (determinePayPeriods_diverges 0 (-5) 2400 false (by decide) (by decide) (by decide)
      (by decide)).2.2.2.1 50 (by decide)⟩

/-- C12, as stated, fails on 64-bit integers.  With accrual `2^62` the totals cycle
through `0, 2^62, -2^63, -2^62`, all below a target above `2^62`:
`determinePayPeriods(0, 2^62, math.MaxInt)` returns for no fuel, and neither does
the execution on the configuration accrual 76861433640456465h4m, target
76861433640456466h, which validates without any overflow in its derived
quantities. -/
theorem execution_cycles :
    (∀ (fuel : Nat) (verbose : Bool),
      determinePayPeriods fuel 0 4611686018427387904 MaxInt verbose = none) ∧
    (TimeOffBuddyConfig.mk 0 0 76861433640456465 4 76861433640456466 false).validateConfig
      = true ∧
    (TimeOffBuddyConfig.mk 0 0 76861433640456465 4 76861433640456466 false).noOverflow ∧
    (∀ fuel : Nat, executeTimeOffBuddy (fun _ => none) fuel
      ⟨((flagDefaults.SetInt HOURS_PER_PAY_PERIOD_OPTION 76861433640456465).SetInt
        MINUTES_PER_PAY_PERIOD_OPTION 4).SetInt TARGET_LONG_OPTION 76861433640456466,
        [], []⟩ = none) ∧
    ¬ ∀ (total perPeriod target : Int) (verbose : Bool), 0 < perPeriod →
        MinInt ≤ total → total ≤ MaxInt → perPeriod ≤ MaxInt → target ≤ MaxInt →
        ∃ (fuel : Nat) (r : Int × List String),
          determinePayPeriods fuel total perPeriod target verbose = some r := by
  have hcyc : ∀ (fuel : Nat) (verbose : Bool),
      determinePayPeriods fuel 0 4611686018427387904 MaxInt verbose = none := by
    intro fuel verbose
    unfold determinePayPeriods
    rw [payPeriodsLoop_cycle MaxInt verbose (by decide) fuel 0 0 [] (Or.inl rfl)]
  refine ⟨hcyc, by decide, by decide, ?_, ?_⟩
  · intro fuel
    rw [executeTimeOffBuddy_of_valid (fun _ => none) fuel _ (by decide) (by decide)]
    have hloop := payPeriodsLoop_cycle 4611686018427387960 false (by decide) fuel 0 0 []
      (Or.inl rfl)
    have hdet : determinePayPeriods fuel 0 4611686018427387904 4611686018427387960 false
        = none := by
      unfold determinePayPeriods
      rw [hloop]
    exact (congrArg (Option.map _) hdet).trans rfl
  · intro hall
    obtain ⟨fuel, r, hr⟩ := hall 0 4611686018427387904 MaxInt false (by decide) (by decide)
      (by decide) (by decide) (by decide)
    rw [hcyc fuel false] at hr
    exact absurd hr (by simp)

/-- C12, amended: `determinePayPeriods` returns for every input with `perPeriod > 0`,
a total not below `-2^63` and `target + perPeriod ≤ 2^63 - 1` (as soon as the fuel
covers the gap `target - total`, which one iteration makes strictly smaller);
outside interactive mode `executeTimeOffBuddy` runs it only on a configuration
that validates, that is with earned minutes `≥ 0`, accrual `> 0` and target
minutes `> 0` (the 64-bit values), and otherwise returns a result that needs no
simulation; hence it returns a result for every configuration that does not
validate, and for every configuration that validates with target minutes plus
accrual at most `2^63 - 1`. -/
theorem execution_terminates :
    (∀ (fuel : Nat) (total perPeriod target : Int) (verbose : Bool), 0 < perPeriod →
      MinInt ≤ total → target + perPeriod ≤ MaxInt →
      (target - total).toNat ≤ fuel →
      ∃ r, determinePayPeriods fuel total perPeriod target verbose = some r) ∧
    (∀ total perPeriod target : Int, 0 < perPeriod → total < target →
      (target - (total + perPeriod)).toNat < (target - total).toNat) ∧
    (∀ (atoi : String → Option Int) (w : World) (cfg : TimeOffBuddyConfig),
      isInteractive w.viper = false → newTimeOffBuddyConfig w.viper = cfg →
      (cfg.validateConfig = true →
        cfg.totalEarnedMinutes ≥ 0 ∧ cfg.totalMinutesPerPayPeriod > 0 ∧
        cfg.targetHoursInMinutes > 0 ∧
        ∀ fuel : Nat, executeTimeOffBuddy atoi fuel w =
          (determinePayPeriods fuel cfg.totalEarnedMinutes cfg.totalMinutesPerPayPeriod
            cfg.targetHoursInMinutes cfg.Verbose).map
            (fun r => (r.1, none, ⟨w.viper, w.stdin, w.stdout ++ r.2⟩))) ∧
      (cfg.validateConfig = false →
        ∀ fuel : Nat, executeTimeOffBuddy atoi fuel w =
          if cfg.totalMinutesPerPayPeriod ≤ 0 then some (MinInt, none, w)
          else some (-1, cfg.whatIsInvalid, w)) ∧
      (cfg.validateConfig = false ∨
          cfg.targetHoursInMinutes + cfg.totalMinutesPerPayPeriod ≤ MaxInt →
        ∀ fuel : Nat, (cfg.targetHoursInMinutes - cfg.totalEarnedMinutes).toNat ≤ fuel →
          ∃ r, executeTimeOffBuddy atoi fuel w = some r)) := by
  refine ⟨?_, ?_, ?_⟩
  · intro fuel total perPeriod target verbose hp hlo hb hfuel
    exact determinePayPeriods_isSome fuel total perPeriod target verbose hp hb hlo hfuel
  · intro total perPeriod target hp ht
    omega
  · intro atoi w cfg hi hc
    subst hc
    refine ⟨?_, ?_, ?_⟩
    · intro hv
      obtain ⟨h1, h2, h3⟩ := (validateConfig_eq_true_iff _).mp hv
      exact ⟨h1, h2, h3, fun fuel => executeTimeOffBuddy_of_valid atoi fuel w hi hv⟩
    · intro hv fuel
      exact executeTimeOffBuddy_of_invalid atoi fuel w hi hv
    · intro hcase fuel hfuel
      cases hv : (newTimeOffBuddyConfig w.viper).validateConfig
      · rw [executeTimeOffBuddy_of_invalid atoi fuel w hi hv]
        split <;> exact ⟨_, rfl⟩
      · have hb : (newTimeOffBuddyConfig w.viper).targetHoursInMinutes
            + (newTimeOffBuddyConfig w.viper).totalMinutesPerPayPeriod ≤ MaxInt := by
          rcases hcase with hf | hb
          · rw [hv] at hf
            exact absurd hf (by simp)
          · exact hb
        obtain ⟨h1, h2, _⟩ := (validateConfig_eq_true_iff _).mp hv
        obtain ⟨x, hx⟩ := determinePayPeriods_isSome fuel
          (newTimeOffBuddyConfig w.viper).totalEarnedMinutes
          (newTimeOffBuddyConfig w.viper).totalMinutesPerPayPeriod
          (newTimeOffBuddyConfig w.viper).targetHoursInMinutes
          (newTimeOffBuddyConfig w.viper).Verbose h2 hb (by unfold MinInt; omega) hfuel
        rw [executeTimeOffBuddy_of_valid atoi fuel w hi hv, hx]
        exact ⟨_, rfl⟩

/-- Witness for C12 (amended): the simulator from 0 toward 2400 by 60, and the
execution on the flag defaults with accrual 1 hour. -/
theorem execution_terminates_witness :
    (∃ r, determinePayPeriods 2400 0 60 2400 true = some r) ∧
    ((2400 : Int) - (0 + 60)).toNat < ((2400 : Int) - 0).toNat ∧
    ∀ fuel : Nat, 2400 ≤ fuel →
      ∃ r, executeTimeOffBuddy (fun _ => none) fuel
        ⟨flagDefaults.SetInt HOURS_PER_PAY_PERIOD_OPTION 1, [], []⟩ = some r :=
  ⟨execution_terminates.1 2400 0 60 2400 true (by decide) (by decide) (by decide) (by decide),
   execution_terminates.2.1 0 60 2400 (by decide) (by decide),
   (execution_terminates.2.2 (fun _ => none)
      ⟨flagDefaults.SetInt HOURS_PER_PAY_PERIOD_OPTION 1, [], []⟩
      (TimeOffBuddyConfig.mk 0 0 1 0 40 false) (by decide) (by rfl)).2.2
     (Or.inr (by decide))⟩

/-! ## Claims, continued -/

/-- C13, as stated, fails.  With `-v` given on the command line (the verbose switch
on before the prompts), empty answers to the five numeric prompts and the
answer `n` to the verbose prompt, the verbose setting is still enabled after
interactive mode, and the run prints its progress lines.  So an answer other
than `y` does not disable the setting. -/
theorem interactiveMode_verbose_not_cleared :
    verbosePromptAnswer (fun _ => none)
      ⟨((flagDefaults.SetInt HOURS_PER_PAY_PERIOD_OPTION 1).SetInt TARGET_LONG_OPTION 1).SetBool
        VERBOSE_LONG_OPTION true |>.SetBool INTERACTIVE_OPTION true,
        ["", "", "", "", "", "n"], []⟩ = "n" ∧
    (newTimeOffBuddyConfig (interactiveMode (fun _ => none)
      ⟨((flagDefaults.SetInt HOURS_PER_PAY_PERIOD_OPTION 1).SetInt TARGET_LONG_OPTION 1).SetBool
        VERBOSE_LONG_OPTION true |>.SetBool INTERACTIVE_OPTION true,
        ["", "", "", "", "", "n"], []⟩).viper).Verbose = true ∧
    (RunE (fun _ => none) 1
      ⟨((flagDefaults.SetInt HOURS_PER_PAY_PERIOD_OPTION 1).SetInt TARGET_LONG_OPTION 1).SetBool
        VERBOSE_LONG_OPTION true |>.SetBool INTERACTIVE_OPTION true,
        ["", "", "", "", "", "n"], []⟩).map (fun r => r.2.stdout.drop 6)
      = some ["0 hrs 0 minutes earned\n", "1 hrs 0 minutes earned\n", "1 pay periods\n"] ∧
    ¬ ∀ (atoi : String → Option Int) (w : World), verbosePromptAnswer atoi w ≠ "y" →
        (newTimeOffBuddyConfig (interactiveMode atoi w).viper).Verbose = false := by
  refine ⟨by decide, by decide, by decide, ?_⟩
  intro hall
  have h := hall (fun _ => none)
    ⟨((flagDefaults.SetInt HOURS_PER_PAY_PERIOD_OPTION 1).SetInt TARGET_LONG_OPTION 1).SetBool
      VERBOSE_LONG_OPTION true |>.SetBool INTERACTIVE_OPTION true,
      ["", "", "", "", "", "n"], []⟩ (by decide)
  revert h
  decide

/-- C13, amended: in interactive mode, after the verbose prompt the verbose setting
is enabled when the answer is exactly `y`, whatever it was before; for every
other answer it is left as it was before the prompt (so it stays disabled
unless it was already enabled, for instance by `-v`). -/
theorem interactiveMode_verbose (atoi : String → Option Int) (w : World) :
    (verbosePromptAnswer atoi w = "y" →
      (newTimeOffBuddyConfig (interactiveMode atoi w).viper).Verbose = true) ∧
    (verbosePromptAnswer atoi w ≠ "y" →
      (newTimeOffBuddyConfig (interactiveMode atoi w).viper).Verbose
        = (newTimeOffBuddyConfig w.viper).Verbose) := by
  have h := verbose_after_interactiveMode atoi w
  constructor
  · intro ha
    rw [if_pos ha] at h
    exact h
  · intro ha
    rw [if_neg ha] at h
    exact h

/-- Witness for C13 (amended): the answer `y` enables the setting from the flag
defaults; the answer `no` leaves it disabled there. -/
theorem interactiveMode_verbose_witness :
    (newTimeOffBuddyConfig (interactiveMode (fun _ => none)
      ⟨flagDefaults, ["", "", "", "", "", "y"], []⟩).viper).Verbose = true ∧
    (newTimeOffBuddyConfig (interactiveMode (fun _ => none)
      ⟨flagDefaults, ["", "", "", "", "", "no"], []⟩).viper).Verbose
        = (newTimeOffBuddyConfig flagDefaults).Verbose :=
  ⟨(interactiveMode_verbose (fun _ => none) ⟨flagDefaults, ["", "", "", "", "", "y"], []⟩).1
      (by decide),
   (interactiveMode_verbose (fun _ => none) ⟨flagDefaults, ["", "", "", "", "", "no"], []⟩).2
      (by decide)⟩

/-- C14, as stated, fails on 64-bit integers.  From 0 minutes, with accrual
`5*10^18` and target `6*10^18`, the closed form
`(target - total + perPeriod - 1) / perPeriod` is 2, but the second addition of
the loop overflows and the program returns 5. -/
theorem closed_form_overflow :
    determinePayPeriods 5 0 5000000000000000000 6000000000000000000 false = some (5, []) ∧
    ((6000000000000000000 : Int) - 0 + 5000000000000000000 - 1) / 5000000000000000000 = 2 ∧
    closedFormPayPeriods 0 5000000000000000000 6000000000000000000 = 2 ∧
    ¬ ∀ (total perPeriod target : Int) (verbose : Bool) (fuel : Nat) (r : Int × List String),
        total < target → 0 < perPeriod →
        MinInt ≤ total → perPeriod ≤ MaxInt → target ≤ MaxInt →
        determinePayPeriods fuel total perPeriod target verbose = some r →
        r.1 = (target - total + perPeriod - 1) / perPeriod := by
  refine ⟨by decide, by decide, by decide, ?_⟩
  intro hall
  have h := hall 0 5000000000000000000 6000000000000000000 false 5 (5, [])
    (by decide) (by decide) (by decide) (by decide) (by decide) (by decide)
  revert h
  decide

/-- C14, amended: for `total < target` and `perPeriod > 0`, with a total not below
`-2^63` and no overflow (`target + perPeriod ≤ 2^63 - 1` and
`target - total ≤ 2^63 - 1`), the count of `determinePayPeriods` is the closed form
`(target - total + perPeriod - 1) / perPeriod`, the ceiling of
`(target - total) / perPeriod` (the operands are positive, so the quotient is
the same for the truncating division of Go); for `total ≥ target` it is 0;
together: under these bounds and for `perPeriod > 0` the loop computes
`closedFormPayPeriods`. -/
theorem determinePayPeriods_closed_form (total perPeriod target : Int) (verbose : Bool) :
    (total < target → 0 < perPeriod → MinInt ≤ total → target + perPeriod ≤ MaxInt →
      target - total ≤ MaxInt →
      (target - total + perPeriod - 1) / perPeriod
        = (target - total + perPeriod - 1).tdiv perPeriod ∧
      ∀ fuel : Nat, (target - total).toNat ≤ fuel →
        (determinePayPeriods fuel total perPeriod target verbose).map Prod.fst
          = some ((target - total + perPeriod - 1) / perPeriod)) ∧
    (total ≥ target → ∀ fuel : Nat,
      (determinePayPeriods fuel total perPeriod target verbose).map Prod.fst = some 0) ∧
    (0 < perPeriod → MinInt ≤ total → target + perPeriod ≤ MaxInt →
      target - total ≤ MaxInt →
      ∀ fuel : Nat, (target - total).toNat ≤ fuel →
        (determinePayPeriods fuel total perPeriod target verbose).map Prod.fst
          = some (closedFormPayPeriods total perPeriod target)) := by
  have hlt : total < target → 0 < perPeriod → MinInt ≤ total → target + perPeriod ≤ MaxInt →
      target - total ≤ MaxInt → ∀ fuel : Nat, (target - total).toNat ≤ fuel →
      (determinePayPeriods fuel total perPeriod target verbose).map Prod.fst
        = some ((target - total + perPeriod - 1) / perPeriod) := by
    intro ht hp hlo hb hroom fuel hfuel
    obtain ⟨k, hrun, _, hg, hmin⟩ :=
      determinePayPeriods_spec total perPeriod target verbose hp hb hlo hroom
    rw [hrun fuel hfuel, ← exit_index_eq_ceil total perPeriod target k hp ht hg hmin]
    rfl
  have hge : total ≥ target → ∀ fuel : Nat,
      (determinePayPeriods fuel total perPeriod target verbose).map Prod.fst = some 0 := by
    intro h fuel
    rw [determinePayPeriods_of_ge fuel total perPeriod target verbose h]
    rfl
  refine ⟨fun ht hp hlo hb hroom => ⟨?_, hlt ht hp hlo hb hroom⟩, hge, ?_⟩
  · exact (Int.tdiv_eq_ediv (by omega) (le_of_lt hp)).symm
  · intro hp hlo hb hroom fuel hfuel
    unfold closedFormPayPeriods
    split
    · rename_i ht
      exact hlt ht hp hlo hb hroom fuel hfuel
    · rename_i ht
      exact hge (not_lt.mp ht) fuel

/-- Witness for C14 (amended): from 30 minutes toward 1000 by 120:
`(970 + 119) / 120 = 9` periods; and from 2400 toward 2400: none. -/
theorem determinePayPeriods_closed_form_witness :
    (determinePayPeriods 9 30 120 1000 false).map Prod.fst = some 9 ∧
    ((1000 : Int) - 30 + 120 - 1) / 120 = 9 ∧
    (∀ fuel : Nat, ((1000 : Int) - 30).toNat ≤ fuel →
      (determinePayPeriods fuel 30 120 1000 false).map Prod.fst
        = some (((1000 : Int) - 30 + 120 - 1) / 120)) ∧
    (∀ fuel : Nat, (determinePayPeriods fuel 2400 60 2400 true).map Prod.fst = some 0) :=
  ⟨by decide, by decide,
   ((determinePayPeriods_closed_form 30 120 1000 false).1 (by decide) (by decide) (by decide)
      (by decide) (by decide)).2,
   (determinePayPeriods_closed_form 2400 60 2400 true).2.1 (by decide)⟩

/-- C15: `whatIsInvalid` returns nil if and only if `validateConfig` returns true: a
non-nil error is produced exactly for the configurations that do not validate. -/
theorem whatIsInvalid_nil_iff (cfg : TimeOffBuddyConfig) :
    (cfg.whatIsInvalid = none ↔ cfg.validateConfig = true) ∧
    ((∃ e : String, cfg.whatIsInvalid = some e) ↔ cfg.validateConfig = false) := by
  obtain ⟨c1, c2, c3, c4⟩ := whatIsInvalid_cases cfg
  have hiff : cfg.whatIsInvalid = none ↔ cfg.validateConfig = true := by
    constructor
    · intro hn
      rw [validateConfig_eq_true_iff]
      by_contra hcon
      by_cases h1 : cfg.totalEarnedMinutes < 0
      · rw [c1 h1] at hn; exact absurd hn (by simp)
      · by_cases h2 : cfg.totalMinutesPerPayPeriod ≤ 0
        · rw [c2 (not_lt.mp h1) h2] at hn; exact absurd hn (by simp)
        · by_cases h3 : cfg.targetHoursInMinutes ≤ 0
          · rw [c3 (not_lt.mp h1) (not_le.mp h2) h3] at hn; exact absurd hn (by simp)
          · exact hcon ⟨not_lt.mp h1, not_le.mp h2, not_le.mp h3⟩
    · intro hv
      obtain ⟨h1, h2, h3⟩ := (validateConfig_eq_true_iff cfg).mp hv
      exact c4 h1 h2 h3
  refine ⟨hiff, ?_⟩
  constructor
  · rintro ⟨e, he⟩
    cases hv : cfg.validateConfig
    · rfl
    · rw [hiff.mpr hv] at he
      exact absurd he (by simp)
  · intro hv
    cases hw : cfg.whatIsInvalid with
    | none =>
      rw [hiff.mp hw] at hv
      exact absurd hv (by simp)
    | some e => exact ⟨e, rfl⟩

/-- C16: `executeTimeOffBuddy` never returns the per-period reason.  Whenever it
returns an error, the accrual per period of the configuration, as the program
computes it on 64-bit integers, is `> 0` (the case `≤ 0` was taken by the
sentinel branch), the error is not the text
`total minutes per pay period invalid: ...`, and it is the earned-minutes reason
or the target reason. -/
theorem executeTimeOffBuddy_never_perPeriod (atoi : String → Option Int) (fuel : Nat)
    (w w1 : World) (r : Int × Option String × World) (e : String)
    (hw : w1 = if isInteractive w.viper then interactiveMode atoi w else w)
    (h : executeTimeOffBuddy atoi fuel w = some r) (he : r.2.1 = some e) :
    wrapInt64 (wrapInt64 ((newTimeOffBuddyConfig w1.viper).HoursPerPayPeriod * 60)
      + (newTimeOffBuddyConfig w1.viper).MinutesPerPayPeriod) > 0 ∧
    (∀ x : Int, e ≠ "total minutes per pay period invalid: " ++ toString x) ∧
    ((∃ x : Int, e = "total earned minutes invalid: " ++ toString x) ∨
      (∃ x : Int, e = "target hours invalid: " ++ toString x)) := by
  obtain ⟨c1, _, c3, _⟩ := whatIsInvalid_cases (newTimeOffBuddyConfig w1.viper)
  cases hv : (newTimeOffBuddyConfig w1.viper).validateConfig
  · rw [executeTimeOffBuddy_stop atoi fuel w w1 hw hv] at h
    by_cases hp : (newTimeOffBuddyConfig w1.viper).totalMinutesPerPayPeriod ≤ 0
    · rw [if_pos hp, Option.some.injEq] at h
      subst h
      exact absurd he (by simp)
    · rw [if_neg hp, Option.some.injEq] at h
      subst h
      have hp2 : 0 < (newTimeOffBuddyConfig w1.viper).totalMinutesPerPayPeriod := not_le.mp hp
      refine ⟨hp2, ?_⟩
      by_cases h1 : (newTimeOffBuddyConfig w1.viper).totalEarnedMinutes < 0
      · have e1 := c1 h1
        rw [show ((-1 : Int), (newTimeOffBuddyConfig w1.viper).whatIsInvalid, w1).2.1
          = (newTimeOffBuddyConfig w1.viper).whatIsInvalid from rfl, e1, Option.some.injEq] at he
        subst he
        exact ⟨fun x hx => earned_ne_perPeriod _ _ hx, Or.inl ⟨_, rfl⟩⟩
      · have h3 : (newTimeOffBuddyConfig w1.viper).targetHoursInMinutes ≤ 0 := by
          by_contra hcon
          have := (validateConfig_eq_true_iff _).mpr ⟨not_lt.mp h1, hp2, not_le.mp hcon⟩
          rw [hv] at this
          exact absurd this (by simp)
        have e3 := c3 (not_lt.mp h1) hp2 h3
        rw [show ((-1 : Int), (newTimeOffBuddyConfig w1.viper).whatIsInvalid, w1).2.1
          = (newTimeOffBuddyConfig w1.viper).whatIsInvalid from rfl, e3, Option.some.injEq] at he
        subst he
        exact ⟨fun x hx => perPeriod_ne_target _ _ hx.symm, Or.inr ⟨_, rfl⟩⟩
  · rw [executeTimeOffBuddy_run atoi fuel w w1 hw hv] at h
    obtain ⟨x, _, hxr⟩ := Option.map_eq_some'.mp h
    subst hxr
    exact absurd he (by simp)

/-- Witness for C16: target hours -2 with accrual 1 hour: the error is the target
reason. -/
theorem executeTimeOffBuddy_never_perPeriod_witness :
    wrapInt64 (wrapInt64 ((1 : Int) * 60) + 0) > 0 ∧
    (∀ x : Int, "target hours invalid: -2" ≠ "total minutes per pay period invalid: " ++ toString x) ∧
    ((∃ x : Int, "target hours invalid: -2" = "total earned minutes invalid: " ++ toString x) ∨
      (∃ x : Int, "target hours invalid: -2" = "target hours invalid: " ++ toString x)) :=
  executeTimeOffBuddy_never_perPeriod (fun _ => none) 0
    ⟨(flagDefaults.SetInt HOURS_PER_PAY_PERIOD_OPTION 1).SetInt TARGET_LONG_OPTION (-2), [], []⟩
    ⟨(flagDefaults.SetInt HOURS_PER_PAY_PERIOD_OPTION 1).SetInt TARGET_LONG_OPTION (-2), [], []⟩
    (-1, some "target hours invalid: -2",
      ⟨(flagDefaults.SetInt HOURS_PER_PAY_PERIOD_OPTION 1).SetInt TARGET_LONG_OPTION (-2), [], []⟩)
    "target hours invalid: -2" (by rfl) (by rfl) (by rfl)

/-- C17: the returned count does not depend on the verbose flag.  For every fuel
and every input the counts of `determinePayPeriods` with verbose set and unset
are the same (both runs return the same count, or neither returns); for
`perPeriod > 0` both runs return one and the same count once the fuel covers the
gap, over the integers always and in the program when no addition overflows;
and two runs of `executeTimeOffBuddy` whose configurations differ only in
`Verbose` give the same `(count, error)`. -/
theorem verbose_independence :
    (∀ (fuel : Nat) (totalEarned perPeriod target : Int),
      (determinePayPeriods fuel totalEarned perPeriod target true).map Prod.fst
        = (determinePayPeriods fuel totalEarned perPeriod target false).map Prod.fst) ∧
    (∀ totalEarned perPeriod target : Int, 0 < perPeriod →
      ∃ n : Int, ∀ fuel : Nat, (target - totalEarned).toNat ≤ fuel →
        (determinePayPeriodsMath fuel totalEarned perPeriod target true).map Prod.fst = some n ∧
        (determinePayPeriodsMath fuel totalEarned perPeriod target false).map Prod.fst
          = some n) ∧
    (∀ totalEarned perPeriod target : Int, 0 < perPeriod → MinInt ≤ totalEarned →
      target + perPeriod ≤ MaxInt → target - totalEarned ≤ MaxInt →
      ∃ n : Int, ∀ fuel : Nat, (target - totalEarned).toNat ≤ fuel →
        (determinePayPeriods fuel totalEarned perPeriod target true).map Prod.fst = some n ∧
        (determinePayPeriods fuel totalEarned perPeriod target false).map Prod.fst = some n) ∧
    (∀ (atoi : String → Option Int) (fuel : Nat) (wa wb wa1 wb1 : World)
      (cfg : TimeOffBuddyConfig) (b : Bool),
      wa1 = (if isInteractive wa.viper then interactiveMode atoi wa else wa) →
      wb1 = (if isInteractive wb.viper then interactiveMode atoi wb else wb) →
      newTimeOffBuddyConfig wa1.viper = cfg →
      newTimeOffBuddyConfig wb1.viper
        = TimeOffBuddyConfig.mk cfg.EarnedHours cfg.EarnedMinutes cfg.HoursPerPayPeriod
            cfg.MinutesPerPayPeriod cfg.TargetHours b →
      (executeTimeOffBuddy atoi fuel wa).map (fun r => (r.1, r.2.1))
        = (executeTimeOffBuddy atoi fuel wb).map (fun r => (r.1, r.2.1))) := by
  refine ⟨determinePayPeriods_verbose, ?_, ?_, ?_⟩
  · intro t p g hp
    obtain ⟨k, hrun, _, _, _⟩ := determinePayPeriodsMath_spec t p g true hp
    refine ⟨(k : Int), fun fuel hfuel => ?_⟩
    have h1 : (determinePayPeriodsMath fuel t p g true).map Prod.fst = some (k : Int) := by
      rw [hrun fuel hfuel]; rfl
    exact ⟨h1, (determinePayPeriodsMath_verbose fuel t p g).symm.trans h1⟩
  · intro t p g hp hlo hb hroom
    obtain ⟨k, hrun, _, _, _⟩ := determinePayPeriods_spec t p g true hp hb hlo hroom
    refine ⟨(k : Int), fun fuel hfuel => ?_⟩
    have h1 : (determinePayPeriods fuel t p g true).map Prod.fst = some (k : Int) := by
      rw [hrun fuel hfuel]; rfl
    exact ⟨h1, (determinePayPeriods_verbose fuel t p g).symm.trans h1⟩
  · intro atoi fuel wa wb wa1 wb1 cfg b hwa hwb hA hB
    cases hv : cfg.validateConfig
    · have hva : (newTimeOffBuddyConfig wa1.viper).validateConfig = false := by rw [hA]; exact hv
      have hvb : (newTimeOffBuddyConfig wb1.viper).validateConfig = false := by rw [hB]; exact hv
      rw [executeTimeOffBuddy_stop atoi fuel wa wa1 hwa hva,
        executeTimeOffBuddy_stop atoi fuel wb wb1 hwb hvb, hA, hB]
      by_cases hp : cfg.totalMinutesPerPayPeriod ≤ 0
      · have hp2 : (TimeOffBuddyConfig.mk cfg.EarnedHours cfg.EarnedMinutes cfg.HoursPerPayPeriod
            cfg.MinutesPerPayPeriod cfg.TargetHours b).totalMinutesPerPayPeriod ≤ 0 := hp
        rw [if_pos hp, if_pos hp2]
        rfl
      · have hp2 : ¬ (TimeOffBuddyConfig.mk cfg.EarnedHours cfg.EarnedMinutes cfg.HoursPerPayPeriod
            cfg.MinutesPerPayPeriod cfg.TargetHours b).totalMinutesPerPayPeriod ≤ 0 := hp
        rw [if_neg hp, if_neg hp2]
        rfl
    · have hva : (newTimeOffBuddyConfig wa1.viper).validateConfig = true := by rw [hA]; exact hv
      have hvb : (newTimeOffBuddyConfig wb1.viper).validateConfig = true := by rw [hB]; exact hv
      rw [executeTimeOffBuddy_run atoi fuel wa wa1 hwa hva,
        executeTimeOffBuddy_run atoi fuel wb wb1 hwb hvb, hA, hB]
      have hcount := determinePayPeriods_verbose_any fuel cfg.totalEarnedMinutes
        cfg.totalMinutesPerPayPeriod cfg.targetHoursInMinutes cfg.Verbose b
      simp only [Option.map_map]
      cases h1 : determinePayPeriods fuel cfg.totalEarnedMinutes cfg.totalMinutesPerPayPeriod
          cfg.targetHoursInMinutes cfg.Verbose <;>
        cases h2 : determinePayPeriods fuel cfg.totalEarnedMinutes cfg.totalMinutesPerPayPeriod
          cfg.targetHoursInMinutes b <;>
        rw [h1, h2] at hcount <;> simp at hcount
      · have h3 : determinePayPeriods fuel
            (TimeOffBuddyConfig.mk cfg.EarnedHours cfg.EarnedMinutes cfg.HoursPerPayPeriod
              cfg.MinutesPerPayPeriod cfg.TargetHours b).totalEarnedMinutes
            (TimeOffBuddyConfig.mk cfg.EarnedHours cfg.EarnedMinutes cfg.HoursPerPayPeriod
              cfg.MinutesPerPayPeriod cfg.TargetHours b).totalMinutesPerPayPeriod
            (TimeOffBuddyConfig.mk cfg.EarnedHours cfg.EarnedMinutes cfg.HoursPerPayPeriod
              cfg.MinutesPerPayPeriod cfg.TargetHours b).targetHoursInMinutes
            (TimeOffBuddyConfig.mk cfg.EarnedHours cfg.EarnedMinutes cfg.HoursPerPayPeriod
              cfg.MinutesPerPayPeriod cfg.TargetHours b).Verbose = none := h2
        rw [h3]
        rfl
      · have h3 : determinePayPeriods fuel
            (TimeOffBuddyConfig.mk cfg.EarnedHours cfg.EarnedMinutes cfg.HoursPerPayPeriod
              cfg.MinutesPerPayPeriod cfg.TargetHours b).totalEarnedMinutes
            (TimeOffBuddyConfig.mk cfg.EarnedHours cfg.EarnedMinutes cfg.HoursPerPayPeriod
              cfg.MinutesPerPayPeriod cfg.TargetHours b).totalMinutesPerPayPeriod
            (TimeOffBuddyConfig.mk cfg.EarnedHours cfg.EarnedMinutes cfg.HoursPerPayPeriod
              cfg.MinutesPerPayPeriod cfg.TargetHours b).targetHoursInMinutes
            (TimeOffBuddyConfig.mk cfg.EarnedHours cfg.EarnedMinutes cfg.HoursPerPayPeriod
              cfg.MinutesPerPayPeriod cfg.TargetHours b).Verbose = some _ := h2
        rw [h3]
        simp only [Option.map_some', Function.comp_apply, Option.some.injEq, Prod.mk.injEq,
          and_true]
        exact hcount

/-- Witness for C17: from 30 minutes toward 60 by 120, and the execution on earned
0h0m, accrual 1h0m, target 40h with the verbose switch off and on. -/
theorem verbose_independence_witness :
    (∃ n : Int, ∀ fuel : Nat, ((60 : Int) - 30).toNat ≤ fuel →
      (determinePayPeriods fuel 30 120 60 true).map Prod.fst = some n ∧
      (determinePayPeriods fuel 30 120 60 false).map Prod.fst = some n) ∧
    (executeTimeOffBuddy (fun _ => none) 40
        ⟨flagDefaults.SetInt HOURS_PER_PAY_PERIOD_OPTION 1, [], []⟩).map (fun r => (r.1, r.2.1))
      = (executeTimeOffBuddy (fun _ => none) 40
        ⟨(flagDefaults.SetInt HOURS_PER_PAY_PERIOD_OPTION 1).SetBool VERBOSE_LONG_OPTION true,
          [], []⟩).map (fun r => (r.1, r.2.1)) :=
  ⟨verbose_independence.2.2.1 30 120 60 (by decide) (by decide) (by decide) (by decide),
   verbose_independence.2.2.2 (fun _ => none) 40
     ⟨flagDefaults.SetInt HOURS_PER_PAY_PERIOD_OPTION 1, [], []⟩
     ⟨(flagDefaults.SetInt HOURS_PER_PAY_PERIOD_OPTION 1).SetBool VERBOSE_LONG_OPTION true, [], []⟩
     ⟨flagDefaults.SetInt HOURS_PER_PAY_PERIOD_OPTION 1, [], []⟩
     ⟨(flagDefaults.SetInt HOURS_PER_PAY_PERIOD_OPTION 1).SetBool VERBOSE_LONG_OPTION true, [], []⟩
     (TimeOffBuddyConfig.mk 0 0 1 0 40 false) true (by rfl) (by rfl) (by rfl) (by rfl)⟩

/-- C18: with `int` a 64-bit two's-complement integer whose additions wrap, for
`0 ≤ total`, `0 < perPeriod`, `0 < target` and `target + perPeriod ≤ 2^63 - 1`:
no addition to the running total overflows (each new total lies in
`0 .. 2^63 - 1` and is its own reduction), the counter stays below `2^63`, and
the wrapping loop of the program, `determinePayPeriods`, is the same as the loop
over the unbounded integers, `determinePayPeriodsMath`, for every fuel; it
returns, once the fuel covers the gap, the least `n ≥ 0` with
`total + n*perPeriod ≥ target`. -/
theorem determinePayPeriods64_eq (total perPeriod target : Int) (verbose : Bool)
    (h0 : 0 ≤ total) (hp : 0 < perPeriod) (ht : 0 < target)
    (hb : target + perPeriod ≤ 2 ^ 63 - 1) :
    ∃ n : Nat,
      target ≤ total + (n : Int) * perPeriod ∧
      (∀ m : Int, 0 ≤ m → target ≤ total + m * perPeriod → (n : Int) ≤ m) ∧
      (∀ j : Nat, j < n →
        0 ≤ total + (j : Int) * perPeriod + perPeriod ∧
        total + (j : Int) * perPeriod + perPeriod ≤ 2 ^ 63 - 1 ∧
        wrapInt64 (total + (j : Int) * perPeriod + perPeriod)
          = total + (j : Int) * perPeriod + perPeriod) ∧
      (n : Int) ≤ 2 ^ 63 - 1 ∧
      (∀ fuel : Nat, determinePayPeriods fuel total perPeriod target verbose
        = determinePayPeriodsMath fuel total perPeriod target verbose) ∧
      (∀ fuel : Nat, (target - total).toNat ≤ fuel →
        (determinePayPeriods fuel total perPeriod target verbose).map Prod.fst
          = some (n : Int)) := by
  have hb2 : target + perPeriod ≤ 9223372036854775807 := by
    have : (2 : Int) ^ 63 - 1 = 9223372036854775807 := by norm_num
    rw [this] at hb
    exact hb
  have hmax : (2 : Int) ^ 63 - 1 = 9223372036854775807 := by norm_num
  have heq : ∀ fuel : Nat, determinePayPeriods fuel total perPeriod target verbose
      = determinePayPeriodsMath fuel total perPeriod target verbose := by
    intro fuel
    exact determinePayPeriods_eq_math fuel total perPeriod target verbose hp
      (by unfold MaxInt; exact hb2) (by unfold MinInt; omega) (by unfold MaxInt; omega)
  obtain ⟨k, hrun, _, hg, hmin⟩ := determinePayPeriodsMath_spec total perPeriod target verbose hp
  have hnonneg : ∀ j : Nat, 0 ≤ (j : Int) * perPeriod := fun j =>
    mul_nonneg (Int.ofNat_nonneg j) (le_of_lt hp)
  refine ⟨k, hg, ?_, ?_, ?_, heq, ?_⟩
  · intro m hm0 hm
    by_contra hlt
    have hlt2 : m < (k : Int) := not_le.mp hlt
    have hj := hmin m.toNat (by omega)
    rw [Int.toNat_of_nonneg hm0] at hj
    exact absurd hm (not_le.mpr hj)
  · intro j hj
    have h1 := hmin j hj
    have h2 := hnonneg j
    have hlo : 0 ≤ total + (j : Int) * perPeriod + perPeriod := by omega
    have hhi : total + (j : Int) * perPeriod + perPeriod ≤ 9223372036854775807 := by omega
    exact ⟨hlo, by rw [hmax]; exact hhi, wrapInt64_of_range _ (by omega) hhi⟩
  · rw [hmax]
    rcases Nat.eq_zero_or_pos k with hk | hk
    · subst hk
      simp
    · have h1 := hmin (k - 1) (by omega)
      have hcast : ((k - 1 : Nat) : Int) = (k : Int) - 1 := by omega
      rw [hcast] at h1
      have h3 : (k : Int) - 1 ≤ ((k : Int) - 1) * perPeriod := by
        have : 0 ≤ ((k : Int) - 1) * (perPeriod - 1) :=
          mul_nonneg (by omega) (by omega)
        have e : ((k : Int) - 1) * (perPeriod - 1)
            = ((k : Int) - 1) * perPeriod - ((k : Int) - 1) := by ring
        omega
      omega
  · intro fuel hfuel
    rw [heq fuel, hrun fuel hfuel]
    rfl

/-- Witness for C18: from 0 toward `2^62 + 5` by `2^62 - 6` (the bound
`target + perPeriod ≤ 2^63 - 1` holds with equality): the wrapping run returns 2,
as the run over the integers does. -/
theorem determinePayPeriods64_eq_witness :
    (determinePayPeriods 2 0 4611686018427387898 4611686018427387909 false).map Prod.fst
      = some 2 ∧
    (determinePayPeriodsMath 2 0 4611686018427387898 4611686018427387909 false).map Prod.fst
      = some 2 ∧
    ∃ n : Nat,
      (∀ m : Int, 0 ≤ m → (4611686018427387909 : Int) ≤ 0 + m * 4611686018427387898 →
        (n : Int) ≤ m) ∧
      ∀ fuel : Nat, determinePayPeriods fuel 0 4611686018427387898 4611686018427387909 false
        = determinePayPeriodsMath fuel 0 4611686018427387898 4611686018427387909 false :=
  ⟨by decide, by decide,
   (determinePayPeriods64_eq 0 4611686018427387898 4611686018427387909 false
      (by decide) (by decide) (by decide) (by norm_num)).imp
     fun _ h => ⟨h.2.1, h.2.2.2.2.1⟩⟩

end TimeOffBuddy
